import Mathlib

/-!
# Viewer render pipeline (`Engine/ViewerInstance.cpp`)

A shallow embedding of the geometry, row splitting, pixel conversion and display
handoff of `ViewerInstance`, followed by the properties established about them.

Conventions of the embedding:
* `double` / `float` values are exact rationals (`ℚ`); `std::floor`, `std::ceil` are
  `Int.floor`, `Int.ceil`; `std::ceil (std::log z / std::log 2.)` is `Int.clog 2 z`
  (see `ceilLog2_eq_real`).
* `int` coordinates are mathematical integers (`Int`): coordinates are assumed to stay
  inside the `int` range, signed overflow being undefined behaviour in the source.
* `unsigned` / `U32` values are `Nat` reduced modulo `2 ^ 32`.
* loops that may fail to terminate take a fuel argument and return `none` when the
  fuel runs out.
-/

namespace ViewerInstance

/-! ## Definitions -/

/-- Value of `std::ceil(std::log(zoomFactor) / std::log(2.))` (line 176) on an exact
zoom factor. -/
def ceilLog2 (zoomFactor : ℚ) : ℤ := Int.clog 2 zoomFactor

/-- Line 176:
`zoomFactor >= 1 ? 1 : std::pow(2,-std::ceil(std::log(zoomFactor) / std::log(2.)))`. -/
def closestPowerOf2 (zoomFactor : ℚ) : ℚ :=
  if zoomFactor ≥ 1 then 1 else (2 : ℚ) ^ (-(ceilLog2 zoomFactor))

/-- Conversion of a `double` to `int` (truncation toward zero), as performed when a
`double` expression is assigned to an `int` member. -/
def toInt (q : ℚ) : Int := if 0 ≤ q then ⌊q⌋ else ⌈q⌉

/-- Integer rectangle `RectI`: the four corners read and written by `renderViewer`. -/
structure RectI where
  x1 : Int
  y1 : Int
  x2 : Int
  y2 : Int
deriving DecidableEq, Repr

/-- Accessor `RectI::width()`. -/
def RectI.width (r : RectI) : Int := r.x2 - r.x1

/-- Accessor `RectI::height()`. -/
def RectI.height (r : RectI) : Int := r.y2 - r.y1

/-- The record built on lines 201-202: `TextureRect(x1,y1,x2,y2,w,h,closestPo2)`. -/
structure TextureRect where
  x1 : Int
  y1 : Int
  x2 : Int
  y2 : Int
  w : Int
  h : Int
  closestPo2 : Int
deriving DecidableEq, Repr

/-- Line 181: `std::pow(2., (double)getViewerTilesPowerOf2())`. -/
def tileSize (tilesPowerOf2 : Int) : ℚ := (2 : ℚ) ^ tilesPowerOf2

/-- Lines 182-185: the tile rectangle before any clamp, from the displayed region,
the decimation factor and the tile size. -/
def texRectOf (roi : RectI) (closestPowerOf2 tileSize : ℚ) : RectI :=
  { x1 := toInt ((⌊((roi.x1 : ℚ) / closestPowerOf2) / tileSize⌋ : ℚ) * tileSize)
    y1 := toInt ((⌊((roi.y1 : ℚ) / closestPowerOf2) / tileSize⌋ : ℚ) * tileSize)
    x2 := toInt ((⌈((roi.x2 : ℚ) / closestPowerOf2) / tileSize⌉ : ℚ) * tileSize)
    y2 := toInt ((⌈((roi.y2 : ℚ) / closestPowerOf2) / tileSize⌉ : ℚ) * tileSize) }

/-- Lines 191-195: the tile rectangle re-expanded by the decimation factor
(`int *= double`), before the intersection with the region of definition. -/
def scaleRect (texRect : RectI) (closestPowerOf2 : ℚ) : RectI :=
  { x1 := toInt ((texRect.x1 : ℚ) * closestPowerOf2)
    y1 := toInt ((texRect.y1 : ℚ) * closestPowerOf2)
    x2 := toInt ((texRect.x2 : ℚ) * closestPowerOf2)
    y2 := toInt ((texRect.y2 : ℚ) * closestPowerOf2) }

/-- Lines 198-202: the texture rectangle handed to the conversion and to the cache key. -/
def textureRectOf (texRect texRectClipped rod : RectI) (closestPowerOf2 : ℚ) : TextureRect :=
  { x1 := texRectClipped.x1
    y1 := texRectClipped.y1
    x2 := texRectClipped.x2
    y2 := texRectClipped.y2
    w := if texRect.width > rod.width then rod.width else texRect.width
    h := if texRect.height > rod.height then rod.height else texRect.height
    closestPo2 := toInt closestPowerOf2 }

/-- Line 325:
`std::ceil((double)(toRender.x2 - toRender.x1) / (double)QThread::idealThreadCount())`. -/
def rowsPerThread (toRender : RectI) (idealThreadCount : Int) : Int :=
  ⌈((toRender.x2 - toRender.x1 : Int) : ℚ) / ((idealThreadCount : Int) : ℚ)⌉

/-- Lines 328-334: the `while (k < toRender.y2)` loop filling `splitRows`; `none` when
the fuel runs out before the loop exits. -/
def splitRowsLoop (y2 rowsPerThread : Int) :
    Nat → Int → List (Int × Int) → Option (List (Int × Int))
  | fuel, k, splitRows =>
    if k < y2 then
      match fuel with
      | 0 => none
      | n + 1 =>
        let top := k + rowsPerThread
        let realTop := if top > y2 then y2 else top
        splitRowsLoop y2 rowsPerThread n (k + rowsPerThread) (splitRows ++ [(k, realTop)])
    else some splitRows

/-- Lines 325-334: the bands of the multi-threaded branch for the region `toRender`. -/
def splitRows (toRender : RectI) (idealThreadCount : Int) (fuel : Nat) :
    Option (List (Int × Int)) :=
  splitRowsLoop toRender.y2 (rowsPerThread toRender idealThreadCount) fuel toRender.y1 []

/-- The `for (int y = yRange.first; y < yRange.second; y+=closestPowerOf2)` loop shared by
`scaleToTexture8bits` (lines 433-498) and `scaleToTexture32bits` (lines 515-539): the
pairs (source row `y`, destination row of the output buffer) it visits, the destination
row being `rowBase + dstY`. -/
def rowLoop (second closestPowerOf2 rowBase : Int) :
    Nat → Int → Int → List (Int × Int) → Option (List (Int × Int))
  | fuel, y, dstY, acc =>
    if y < second then
      match fuel with
      | 0 => none
      | n + 1 =>
        rowLoop second closestPowerOf2 rowBase n (y + closestPowerOf2) (dstY + 1)
          (acc ++ [(y, rowBase + dstY)])
    else some acc

/-- Lines 430 / 512: the destination row at which a band starts,
`(yRange.first - texRect.y1) / closestPowerOf2` (integer division of the source). -/
def bandRowBase (texRectY1 closestPowerOf2 : Int) (yRange : Int × Int) : Int :=
  Int.tdiv (yRange.1 - texRectY1) closestPowerOf2

/-- Source rows read and destination rows written by `scaleToTexture8bits` /
`scaleToTexture32bits` for one band. -/
def bandRows (texRectY1 closestPowerOf2 : Int) (yRange : Int × Int) (fuel : Nat) :
    Option (List (Int × Int)) :=
  rowLoop yRange.2 closestPowerOf2 (bandRowBase texRectY1 closestPowerOf2 yRange)
    fuel yRange.1 0 []

/-- Destination rows of the output buffer written for one band. -/
def dstRows (texRectY1 closestPowerOf2 : Int) (yRange : Int × Int) (fuel : Nat) :
    Option (List Int) :=
  (bandRows texRectY1 closestPowerOf2 yRange fuel).map (List.map Prod.snd)

/-- A list of bands is a contiguous chain of non-empty half-open ranges from `a` to `b`. -/
def IsPartition : Int → Int → List (Int × Int) → Prop
  | a, b, [] => a = b
  | a, b, band :: rest => band.1 = a ∧ band.1 < band.2 ∧ IsPartition band.2 b rest


/-! ### Pixel conversion -/

/-- The display channel modes switched on by `renderFunctor` (lines 381-410). -/
inductive DisplayChannels
  | RGBA
  | LUMINANCE
  | R
  | G
  | B
  | A
deriving DecidableEq, Repr

/-- The arguments `rOffset, gOffset, bOffset, luminance` that `renderFunctor` passes on. -/
structure ChannelSel where
  rOffset : Int
  gOffset : Int
  bOffset : Int
  luminance : Bool
deriving DecidableEq, Repr

/-- Lines 379-410: all offsets start at 0 and `luminance` at false; each case of the
switch assigns what the source assigns (the `LUMINANCE` case only sets `luminance`). -/
def channelSel : DisplayChannels → ChannelSel
  | .RGBA => { rOffset := 0, gOffset := 1, bOffset := 2, luminance := false }
  | .LUMINANCE => { rOffset := 0, gOffset := 0, bOffset := 0, luminance := true }
  | .R => { rOffset := 0, gOffset := 0, bOffset := 0, luminance := false }
  | .G => { rOffset := 1, gOffset := 1, bOffset := 1, luminance := false }
  | .B => { rOffset := 2, gOffset := 2, bOffset := 2, luminance := false }
  | .A => { rOffset := 3, gOffset := 3, bOffset := 3, luminance := false }

/-- Lines 459-466 of `scaleToTexture8bits`: the `r, g, b` doubles of the sample at
`srcIndex`, as they stand right before the colour-space step. `src_pixels` gives the float
stored at each offset from the start of the scan-line. -/
def rgb8 (src_pixels : Int → ℚ) (srcIndex : Int) (sel : ChannelSel) (_exposure : ℚ) :
    ℚ × ℚ × ℚ :=
  let r := src_pixels (srcIndex * 4 + sel.rOffset) * _exposure
  let g := src_pixels (srcIndex * 4 + sel.gOffset) * _exposure
  let b := src_pixels (srcIndex * 4 + sel.bOffset) * _exposure
  if sel.luminance then
    let r := 0.299 * r + 0.587 * g + 0.114 * b
    (r, r, r)
  else (r, g, b)

/-- Lines 523-534 of `scaleToTexture32bits`: the four floats written for the source pixel
on which the moving pointer `src_pixels` stands (`offset` floats after the scan-line
start). -/
def rgba32 (src_pixels : Int → ℚ) (offset : Int) (sel : ChannelSel) : ℚ × ℚ × ℚ × ℚ :=
  let r := src_pixels (offset + sel.rOffset)
  let g := src_pixels (offset + sel.gOffset)
  let b := src_pixels (offset + sel.bOffset)
  if sel.luminance then
    let r := 0.299 * r + 0.587 * g + 0.114 * b
    (r, r, r, 1)
  else (r, g, b, 1)

/-- Lines 522-537: the inner loop of `scaleToTexture32bits` over one scan-line; the list
of pixels written to `dst_pixels`, in order. -/
def scanline32 (x2 closestPowerOf2 : Int) (src_pixels : Int → ℚ) (sel : ChannelSel) :
    Nat → Int → Int → List (ℚ × ℚ × ℚ × ℚ) → Option (List (ℚ × ℚ × ℚ × ℚ))
  | fuel, x, offset, dst =>
    if x < x2 then
      match fuel with
      | 0 => none
      | n + 1 =>
        scanline32 x2 closestPowerOf2 src_pixels sel n (x + closestPowerOf2)
          (offset + closestPowerOf2 * 4) (dst ++ [rgba32 src_pixels offset sel])
    else some dst

/-- The `r, g, b` values `renderFunctor` (lines 411-418) computes for the source pixel
number `srcIndex` of a scan-line, before any colour-space transform: through
`scaleToTexture32bits` for the float bit depths, through `scaleToTexture8bits` otherwise. -/
def renderFunctorRgb (floatDepth : Bool) (_channels : DisplayChannels) (_exposure : ℚ)
    (src_pixels : Int → ℚ) (srcIndex : Int) : ℚ × ℚ × ℚ :=
  if floatDepth then
    let v := rgba32 src_pixels (srcIndex * 4) (channelSel _channels)
    (v.1, v.2.1, v.2.2.1)
  else rgb8 src_pixels srcIndex (channelSel _channels) _exposure

/-- Lines 543-550: `toBGRA` on `U32` arguments. -/
def toBGRA (r g b a : Nat) : Nat :=
  b ||| ((g <<< 8) % 2 ^ 32) ||| ((r <<< 16) % 2 ^ 32) ||| ((a <<< 24) % 2 ^ 32)

/-- Lines 476-478: one update of an `unsigned` error accumulator,
`error = (error & 0xff) + v`. -/
def errorStep (error v : Nat) : Nat := ((error &&& 0xff) + v) % 2 ^ 32

/-- The successive values of one accumulator along a walk fed with the transform outputs
`vs`, starting from `error`. -/
def errorTrace : Nat → List Nat → List Nat
  | _, [] => []
  | error, v :: vs => errorStep error v :: errorTrace (errorStep error v) vs

/-- The byte emitted for an accumulator value: `(U8)(error >> 8)` (lines 480-482). -/
def emitted (error : Nat) : Nat := (error >>> 8) % 256

/-- State of one directional walk of `scaleToTexture8bits` (lines 444-495), with the
source offsets read, the pixels written and whether the assertion of line 479 held. -/
structure Walk where
  dstIndex : Int
  srcIndex : Int
  error_r : Nat
  error_g : Nat
  error_b : Nat
  reads : List Int
  writes : List (Int × Nat)
  assertOk : Bool
deriving DecidableEq, Repr

/-- Lines 457-493: one iteration of the `while` loop that does not `break`. The colour
space is `none` for the linear setting (`!_colorSpace`), otherwise the function
`toColorSpaceUint8xxFromLinearFloatFast`; `floatToInt256` stands for
`Color::floatToInt<256>`. -/
def walkBody (colorSpace : Option (ℚ → Nat)) (floatToInt256 : ℚ → Nat)
    (src_pixels : Int → ℚ) (sel : ChannelSel) (_exposure : ℚ) (closestPowerOf2 : Int)
    (backward : Bool) (s : Walk) : Walk :=
  let rgb := rgb8 src_pixels s.srcIndex sel _exposure
  let s1 : Walk :=
    match colorSpace with
    | none =>
      { s with
        reads := s.reads ++ [s.srcIndex]
        writes := s.writes ++ [(s.dstIndex,
          toBGRA (floatToInt256 rgb.1) (floatToInt256 rgb.2.1) (floatToInt256 rgb.2.2) 255)] }
    | some lut =>
      let er := errorStep s.error_r (lut rgb.1)
      let eg := errorStep s.error_g (lut rgb.2.1)
      let eb := errorStep s.error_b (lut rgb.2.2)
      { s with
        error_r := er
        error_g := eg
        error_b := eb
        reads := s.reads ++ [s.srcIndex]
        writes := s.writes ++ [(s.dstIndex, toBGRA (emitted er) (emitted eg) (emitted eb) 255)]
        assertOk := s.assertOk && decide (er < 0x10000 ∧ eg < 0x10000 ∧ eb < 0x10000) }
  if backward then
    { s1 with dstIndex := s1.dstIndex - 1, srcIndex := s1.srcIndex - closestPowerOf2 }
  else
    { s1 with dstIndex := s1.dstIndex + 1, srcIndex := s1.srcIndex + closestPowerOf2 }

/-- Lines 452-495: the `while(dstIndex < texRect.w && dstIndex >= 0)` loop. -/
def walkLoop (colorSpace : Option (ℚ → Nat)) (floatToInt256 : ℚ → Nat)
    (src_pixels : Int → ℚ) (sel : ChannelSel) (_exposure : ℚ) (texRect : TextureRect)
    (closestPowerOf2 : Int) (backward : Bool) : Nat → Walk → Option Walk
  | fuel, s =>
    if s.dstIndex < texRect.w ∧ s.dstIndex ≥ 0 then
      if s.srcIndex > texRect.x2 - texRect.x1 then some s
      else
        match fuel with
        | 0 => none
        | n + 1 =>
          walkLoop colorSpace floatToInt256 src_pixels sel _exposure texRect closestPowerOf2
            backward n
            (walkBody colorSpace floatToInt256 src_pixels sel _exposure closestPowerOf2
              backward s)
    else some s

/-- Lines 444-450: the state in which a directional walk starts from the column `start`. -/
def walkInit (closestPowerOf2 start : Int) (backward : Bool) : Walk :=
  let dstIndex := if backward then start - 1 else start
  { dstIndex := dstIndex
    srcIndex := dstIndex * closestPowerOf2
    error_r := 0x80
    error_g := 0x80
    error_b := 0x80
    reads := []
    writes := []
    assertOk := true }


/-- A scan-line whose first pixel is pure green, `(R, G, B, A) = (0, 1, 0, 1)`. -/
def greenLine : Int → ℚ := fun offset => if offset = 1 ∨ offset = 3 then 1 else 0

/-- A scan-line of white opaque pixels, `(R, G, B, A) = (1, 1, 1, 1)`. -/
def whiteLine : Int → ℚ := fun _ => 1


/-! ### Control flow of `renderViewer` and `updateViewer` -/

/-- Modelled from the spec: the status enumeration `Status{OK, Failed, Aborted}` of the
exposed `render` operation. `Natron::Status` is declared outside this file, which names
only `StatOK` and `StatFailed`. -/
inductive Status
  | StatOK
  | StatFailed
  | StatAborted
deriving DecidableEq, Repr

/-- The members of `ViewerInstance` that `renderViewer` and `updateViewer` update. -/
structure ViewerState where
  _pboIndex : Int
  _forceRender : Bool
  _mustFreeBuffer : Bool
deriving DecidableEq, Repr

/-- Lines 40-59: the state set up by the constructor. -/
def ViewerState.init : ViewerState :=
  { _pboIndex := 0, _forceRender := false, _mustFreeBuffer := false }

/-- Calls made to the collaborators (cache, upstream node, display) and to the pixel
conversion, in the order in which they happen. `removeFromViewerCache` and
`scaleToTexture` carry their argument: whether `cachedFrame` holds an entry, and the
bit depth (true for the float path) and band converted. -/
inductive Event
  | fitImageToFormat
  | setRegionOfDefinition (rod : RectI)
  | getTextureFromCache
  | setOrAddProjectFormat
  | freeBuffer
  | mallocBuffer (bytesCount : Int)
  | notifyInputNIsRendering
  | renderRoI (window : RectI) (byPassCache : Bool)
  | notifyInputNIsFinishedRendering
  | removeFromViewerCache (cachedFrame : Bool)
  | scaleToTexture (floatDepth : Bool) (yRange : Int × Int)
  | clearExceedingEntriesFromNodeCache
  | makeOpenGLcontextCurrent
  | transferBufferFromRAMtoGPU (pboIndex : Int)
  | updateColorPicker
  | redraw
deriving DecidableEq, Repr

/-- What one call of `renderViewer` reads from outside `ViewerInstance.cpp`: the answers
of the display, the project, the cache, the upstream node and the video engine, and the
value of `aborted()` at each place where it is polled. `intersect a b` gives the result
of `a.intersect(b, &a)`: the returned flag and the value left in `a`. The lookup
`getTextureFromCache` leaves an entry in `cachedFrame` (found, or reserved for the
render, as the assertion of line 278 states). -/
structure Env where
  zoomFactor : ℚ
  abortedAtEntry : Bool
  rodStatus : Status
  rod : RectI
  zoomFactorAfterFit : ℚ
  roi : RectI
  tilesPowerOf2 : Int
  intersect : RectI → RectI → Bool × RectI
  floatDepth : Bool
  userRoIEnabled : Bool
  userRoI : RectI
  isCached : Bool
  renderRoINonNull : Bool
  abortedAfterRender : Bool
  abortedInFunctor : Int × Int → Bool
  abortedAfterConversion : Bool
  mustQuit : Bool
  abortedBeforeUpdate : Bool
  abortedInUpdate : Bool
  idealThreadCount : Int

/-- Result of a call of `renderViewer`. -/
structure Outcome where
  status : Status
  events : List Event
  state : ViewerState
deriving DecidableEq, Repr

/-- Lines 558-574: `updateViewer`, given the value of `aborted()` it observes. -/
def updateViewer (aborted : Bool) (st : ViewerState) : ViewerState × List Event :=
  if !aborted then
    ({ st with _pboIndex := Int.tmod (st._pboIndex + 1) 2 },
      [Event.makeOpenGLcontextCurrent, Event.transferBufferFromRAMtoGPU st._pboIndex,
        Event.updateColorPicker, Event.redraw])
  else
    (st, [Event.makeOpenGLcontextCurrent, Event.updateColorPicker, Event.redraw])

/-- A sequence of handoffs: `updateViewer` called once per element of `aborts`, each
observing the given value of `aborted()`. -/
def updateViewerSeq : List Bool → ViewerState → ViewerState × List Event
  | [], st => (st, [])
  | aborted :: rest, st =>
    let r := updateViewer aborted st
    let rs := updateViewerSeq rest r.1
    (rs.1, r.2 ++ rs.2)

/-- The buffer indices passed to `transferBufferFromRAMtoGPU` in a list of events. -/
def uploads : List Event → List Int
  | [] => []
  | Event.transferBufferFromRAMtoGPU i :: rest => i :: uploads rest
  | _ :: rest => uploads rest

/-- Lines 353-370: the tail of `renderViewer`, the quit check and the handoff to the
display (inline or through `doUpdateViewer`, which runs `updateViewer`). -/
def handoff (env : Env) (st : ViewerState) (events : List Event) : Outcome :=
  if env.mustQuit then { status := Status.StatFailed, events := events, state := st }
  else if !env.abortedBeforeUpdate then
    let r := updateViewer env.abortedInUpdate st
    { status := Status.StatOK, events := events ++ r.2, state := r.1 }
  else { status := Status.StatOK, events := events, state := st }

/-- Lines 372-420: the conversions run by `renderFunctor` over a list of bands; a band
whose call observes `aborted()` converts nothing. -/
def renderFunctorEvents (env : Env) : List (Int × Int) → List Event
  | [] => []
  | yRange :: rest =>
    if env.abortedInFunctor yRange then renderFunctorEvents env rest
    else Event.scaleToTexture env.floatDepth yRange :: renderFunctorEvents env rest

/-- Lines 260-351: the branch of `renderViewer` taken when the frame was not found in
the viewer cache, from the buffer set-up to the end of the conversion. `events` are the
calls made so far, `cachedFrame` tells whether the lookup left an entry. -/
def renderMiss (env : Env) (st : ViewerState) (events : List Event)
    (cachedFrame byPassCache : Bool) (texRectClipped : RectI) (bytesCount : Int)
    (singleThreaded : Bool) (fuel : Nat) : Option Outcome :=
  let ev3 := events ++ (if st._mustFreeBuffer then [Event.freeBuffer] else [])
  let ownBuffer := byPassCache || env.userRoIEnabled
  let ev4 := ev3 ++ (if ownBuffer then [Event.mallocBuffer bytesCount] else [])
  let st2 := { st with _mustFreeBuffer := ownBuffer }
  let clipped := env.intersect texRectClipped env.userRoI
  if env.userRoIEnabled && !clipped.1 then
    some { status := Status.StatOK, events := ev4, state := st2 }
  else
    let toRender := if env.userRoIEnabled then clipped.2 else texRectClipped
    let ev5 := ev4 ++ [Event.notifyInputNIsRendering,
      Event.renderRoI toRender byPassCache, Event.notifyInputNIsFinishedRendering]
    if !env.renderRoINonNull then
      some { status := Status.StatFailed
             events := ev5 ++ [Event.removeFromViewerCache cachedFrame]
             state := st2 }
    else if env.abortedAfterRender then
      some { status := Status.StatOK
             events := ev5 ++ [Event.removeFromViewerCache cachedFrame]
             state := st2 }
    else
      let bands :=
        if singleThreaded then some [(toRender.y1, toRender.y2)]
        else splitRows toRender env.idealThreadCount fuel
      match bands with
      | none => none
      | some bands =>
        let ev6 := ev5 ++ renderFunctorEvents env bands
        if env.abortedAfterConversion then
          some { status := Status.StatOK
                 events := ev6 ++ [Event.removeFromViewerCache cachedFrame]
                 state := st2 }
        else
          some (handoff env st2 (ev6 ++ [Event.clearExceedingEntriesFromNodeCache]))

/-- Lines 207-371: `renderViewer` from the point where the tile is known not to be
degenerate: byte count, cache gate, then the cached or the rendering branch. -/
def renderTile (env : Env) (st : ViewerState) (events : List Event)
    (texRectClipped : RectI) (textureRect : TextureRect) (singleThreaded : Bool)
    (fuel : Nat) : Option Outcome :=
  let bytesCount := textureRect.w * textureRect.h * 4 * (if env.floatDepth then 4 else 1)
  let lookup := !st._forceRender && !env.userRoIEnabled
  let isCached := lookup && env.isCached
  let cachedFrame := lookup
  let byPassCache := st._forceRender
  let st1 := { st with _forceRender := false }
  let ev2 := events ++ (if lookup then [Event.getTextureFromCache] else [])
  if isCached then some (handoff env st1 (ev2 ++ [Event.setOrAddProjectFormat]))
  else
    renderMiss env st1 ev2 cachedFrame byPassCache texRectClipped bytesCount singleThreaded
      fuel

/-- Lines 138-371: `renderViewer`. The result is `none` when the splitting loop of the
multi-threaded branch does not exit within `fuel` iterations. -/
def renderViewer (env : Env) (st : ViewerState) (fitToViewer singleThreaded : Bool)
    (fuel : Nat) : Option Outcome :=
  if env.abortedAtEntry then some { status := Status.StatFailed, events := [], state := st }
  else if env.rodStatus = Status.StatFailed then
    some { status := Status.StatFailed, events := [], state := st }
  else
    let zoomFactor := if fitToViewer then env.zoomFactorAfterFit else env.zoomFactor
    let ev1 := (if fitToViewer then [Event.fitImageToFormat] else []) ++
      [Event.setRegionOfDefinition env.rod]
    let closestPowerOf2 := closestPowerOf2 zoomFactor
    let texRect := texRectOf env.roi closestPowerOf2 (tileSize env.tilesPowerOf2)
    if texRect.width = 0 ∨ texRect.height = 0 then
      some { status := Status.StatOK, events := ev1, state := st }
    else
      let texRectClipped := (env.intersect (scaleRect texRect closestPowerOf2) env.rod).2
      let textureRect := textureRectOf texRect texRectClipped env.rod closestPowerOf2
      renderTile env st ev1 texRectClipped textureRect singleThreaded fuel

/-- A request on a 2 × 2 image shown at zoom 1 with tiles of one pixel, nothing cached,
whose abort flag is raised right after the upstream render returned an image. -/
def abortAfterRenderEnv : Env :=
  { zoomFactor := 1
    abortedAtEntry := false
    rodStatus := Status.StatOK
    rod := ⟨0, 0, 2, 2⟩
    zoomFactorAfterFit := 1
    roi := ⟨0, 0, 2, 2⟩
    tilesPowerOf2 := 0
    intersect := fun a _ => (true, a)
    floatDepth := false
    userRoIEnabled := false
    userRoI := ⟨0, 0, 2, 2⟩
    isCached := false
    renderRoINonNull := true
    abortedAfterRender := true
    abortedInFunctor := fun _ => false
    abortedAfterConversion := false
    mustQuit := false
    abortedBeforeUpdate := false
    abortedInUpdate := false
    idealThreadCount := 1 }


/-! ### Start column of the 8-bit walk and the geometry handed to it -/

/-- Line 436: `(int)(rand() % ((texRect.x2 - texRect.x1)/closestPowerOf2))`, for the value
`rnd` returned by `rand()`. The result is `none` when the modulus is zero (the division
by zero is undefined in the source). -/
def startColumn (texRect : TextureRect) (closestPowerOf2 : Int) (rnd : Nat) : Option Int :=
  let modulus := Int.tdiv (texRect.x2 - texRect.x1) closestPowerOf2
  if modulus = 0 then none else some (Int.tmod (rnd : Int) modulus)

/-- Lines 442-496: the two directional walks over one scan-line, first forward from
`start`, then backward from `start - 1`. -/
def scanline8 (colorSpace : Option (ℚ → Nat)) (floatToInt256 : ℚ → Nat)
    (src_pixels : Int → ℚ) (sel : ChannelSel) (_exposure : ℚ) (texRect : TextureRect)
    (closestPowerOf2 start : Int) (fuel : Nat) : Option (Walk × Walk) :=
  match walkLoop colorSpace floatToInt256 src_pixels sel _exposure texRect closestPowerOf2
      false fuel (walkInit closestPowerOf2 start false),
    walkLoop colorSpace floatToInt256 src_pixels sel _exposure texRect closestPowerOf2
      true fuel (walkInit closestPowerOf2 start true) with
  | some forward, some backward => some (forward, backward)
  | _, _ => none

/-- Lines 176-202: the texture rectangle `renderViewer` derives from the region of
definition, the displayed region, the zoom factor and the tile power, `intersect a b`
being the value left in `a` by `a.intersect(b, &a)` with its returned flag. -/
def textureRectFor (rod roi : RectI) (zoomFactor : ℚ) (tilesPowerOf2 : Int)
    (intersect : RectI → RectI → Bool × RectI) : TextureRect :=
  let closestPowerOf2 := closestPowerOf2 zoomFactor
  let texRect := texRectOf roi closestPowerOf2 (tileSize tilesPowerOf2)
  let texRectClipped := (intersect (scaleRect texRect closestPowerOf2) rod).2
  textureRectOf texRect texRectClipped rod closestPowerOf2

/-- Modelled from the spec: the clamp of a rectangle against another one (§4.1),
`RectI::intersect` being declared outside this file. Overlapping rectangles give `true`
and their common part; otherwise the flag is `false` and the receiver is left as it
was. -/
def intersectRect (a b : RectI) : Bool × RectI :=
  if max a.x1 b.x1 < min a.x2 b.x2 ∧ max a.y1 b.y1 < min a.y2 b.y2 then
    (true, { x1 := max a.x1 b.x1, y1 := max a.y1 b.y1, x2 := min a.x2 b.x2,
             y2 := min a.y2 b.y2 })
  else (false, a)

/-- A request on a 2 × 2 image shown at zoom 1 with tiles of one pixel, nothing cached and
no abort, whose user region of interest is enabled and lies outside the image. -/
def userRoIOutsideEnv : Env :=
  { zoomFactor := 1
    abortedAtEntry := false
    rodStatus := Status.StatOK
    rod := ⟨0, 0, 2, 2⟩
    zoomFactorAfterFit := 1
    roi := ⟨0, 0, 2, 2⟩
    tilesPowerOf2 := 0
    intersect := intersectRect
    floatDepth := false
    userRoIEnabled := true
    userRoI := ⟨10, 10, 12, 12⟩
    isCached := false
    renderRoINonNull := true
    abortedAfterRender := false
    abortedInFunctor := fun _ => false
    abortedAfterConversion := false
    mustQuit := false
    abortedBeforeUpdate := false
    abortedInUpdate := false
    idealThreadCount := 1 }

/-- A request with the force-render flag meant to be set, on a 2 × 2 image shown at
zoom 1 with tiles of one pixel, an entry for the key being in the cache, rendered in the
calling thread without any abort. -/
def forcedRenderEnv : Env :=
  { zoomFactor := 1
    abortedAtEntry := false
    rodStatus := Status.StatOK
    rod := ⟨0, 0, 2, 2⟩
    zoomFactorAfterFit := 1
    roi := ⟨0, 0, 2, 2⟩
    tilesPowerOf2 := 0
    intersect := intersectRect
    floatDepth := false
    userRoIEnabled := false
    userRoI := ⟨0, 0, 0, 0⟩
    isCached := true
    renderRoINonNull := true
    abortedAfterRender := false
    abortedInFunctor := fun _ => false
    abortedAfterConversion := false
    mustQuit := false
    abortedBeforeUpdate := false
    abortedInUpdate := false
    idealThreadCount := 1 }


/-! ### Quantities of `renderViewer` named by the statements about the cache gate -/

/-- Lines 145-185: the tile rectangle `texRect` of a request, before any clamp. -/
def displayedTile (env : Env) (fitToViewer : Bool) : RectI :=
  texRectOf env.roi
    (closestPowerOf2 (if fitToViewer then env.zoomFactorAfterFit else env.zoomFactor))
    (tileSize env.tilesPowerOf2)

/-- Lines 191-196: the rectangle `texRectClipped` of a request. -/
def clippedTile (env : Env) (fitToViewer : Bool) : RectI :=
  (env.intersect
    (scaleRect (displayedTile env fitToViewer)
      (closestPowerOf2 (if fitToViewer then env.zoomFactorAfterFit else env.zoomFactor)))
    env.rod).2

/-- Lines 290-294: the user region of interest is enabled and `toRender.intersect` with
it returns false, which makes `renderViewer` return `StatOK` before the upstream
render. -/
def userRoIMisses (env : Env) (fitToViewer : Bool) : Bool :=
  env.userRoIEnabled && !(env.intersect (clippedTile env fitToViewer) env.userRoI).1

/-- Calls that `renderViewer` only makes after the upstream render has returned: the
eviction, the conversions, the trim of the node cache and the display calls. -/
def Event.afterRender : Event → Bool
  | Event.removeFromViewerCache _ => true
  | Event.scaleToTexture _ _ => true
  | Event.clearExceedingEntriesFromNodeCache => true
  | Event.makeOpenGLcontextCurrent => true
  | Event.transferBufferFromRAMtoGPU _ => true
  | Event.updateColorPicker => true
  | Event.redraw => true
  | _ => false


/-! ## Theorems -/

/-- The integer logarithm used by `ceilLog2` is the ceiling of the real quotient
`log z / log 2` that the source evaluates. -/
theorem ceilLog2_eq_real (z : ℚ) (hz : 0 < z) :
    ceilLog2 z = ⌈Real.log (z : ℝ) / Real.log 2⌉ := by
  have hzR : (0 : ℝ) < (z : ℝ) := by exact_mod_cast hz
  have h2 : (1 : ℕ) < 2 := by norm_num
  rw [Real.log_div_log]
  have hcast : Real.logb 2 (z : ℝ) = Real.logb ((2 : ℕ) : ℝ) (z : ℝ) := by norm_num
  rw [hcast, Real.ceil_logb_natCast hzR.le]
  unfold ceilLog2
  apply eq_of_forall_ge_iff
  intro c
  rw [← Int.le_zpow_iff_clog_le h2 hz, ← Int.le_zpow_iff_clog_le h2 hzR]
  constructor
  · intro h
    have : ((z : ℚ) : ℝ) ≤ (((2 : ℕ) : ℚ) ^ c : ℚ) := by exact_mod_cast h
    simpa using this
  · intro h
    have : ((z : ℚ) : ℝ) ≤ ((((2 : ℕ) : ℚ) ^ c : ℚ) : ℝ) := by simpa using h
    exact_mod_cast this

theorem ceilLog2_three_tenths : ceilLog2 (3 / 10) = -1 := by
  unfold ceilLog2
  have h2 : (1 : ℕ) < 2 := by norm_num
  have hpos : (0 : ℚ) < 3 / 10 := by norm_num
  apply le_antisymm
  · rw [← Int.le_zpow_iff_clog_le h2 hpos]
    norm_num
  · have : (-2 : ℤ) < Int.clog 2 (3 / 10 : ℚ) := by
      rw [← Int.zpow_lt_iff_lt_clog h2 hpos]
      norm_num
    omega

theorem closestPowerOf2_three_tenths : closestPowerOf2 (3 / 10) = 2 := by
  unfold closestPowerOf2
  rw [if_neg (by norm_num), ceilLog2_three_tenths]
  norm_num

/-! ### Mip selection (line 176) -/

/-- C1 (as stated, refuted): at zoom factor 0.3 the decimation factor computed on line 176
is 2; it is not 4 and it is not a power of two that is at least `1 / 0.3`. -/
theorem closestPowerOf2_three_tenths_ne_four :
    closestPowerOf2 (3 / 10) = 2 ∧ closestPowerOf2 (3 / 10) ≠ 4 ∧
      ¬ (1 / (3 / 10 : ℚ) ≤ closestPowerOf2 (3 / 10)) := by
  rw [closestPowerOf2_three_tenths]
  norm_num

/-- C1 (amended): for every zoom factor `z ≥ 1` the decimation factor is 1, and for every
`0 < z < 1` it is the largest power of two that is at most `1 / z`, that is
`2 ^ floor (log2 (1 / z))`; in particular `z = 0.3` gives decimation 2. -/
theorem closestPowerOf2_largest_pow_le (z : ℚ) (hz : 0 < z) :
    (1 ≤ z → closestPowerOf2 z = 1) ∧
    (z < 1 → ∃ k : ℕ, closestPowerOf2 z = 2 ^ k ∧ (2 : ℚ) ^ k ≤ 1 / z ∧ 1 / z < 2 ^ (k + 1)) ∧
    closestPowerOf2 (3 / 10) = 2 := by
  refine ⟨fun h => ?_, fun h => ?_, closestPowerOf2_three_tenths⟩
  · unfold closestPowerOf2
    rw [if_pos h]
  · have hinv : (1 : ℚ) ≤ z⁻¹ := (one_le_inv₀ hz).2 h.le
    have hfl : ⌊z⁻¹⌋₊ ≠ 0 := by
      have : 1 ≤ ⌊z⁻¹⌋₊ := Nat.le_floor (by simpa using hinv)
      omega
    refine ⟨Nat.log 2 ⌊z⁻¹⌋₊, ?_, ?_, ?_⟩
    · unfold closestPowerOf2 ceilLog2
      rw [if_neg (not_le.2 h), Int.clog_of_right_le_one 2 h.le, neg_neg, zpow_natCast]
    · rw [one_div]
      have h1 : (2 : ℕ) ^ Nat.log 2 ⌊z⁻¹⌋₊ ≤ ⌊z⁻¹⌋₊ := Nat.pow_log_le_self 2 hfl
      have h2 : ((⌊z⁻¹⌋₊ : ℕ) : ℚ) ≤ z⁻¹ := Nat.floor_le (le_trans zero_le_one hinv)
      have h3 : (((2 : ℕ) ^ Nat.log 2 ⌊z⁻¹⌋₊ : ℕ) : ℚ) ≤ ((⌊z⁻¹⌋₊ : ℕ) : ℚ) := by
        exact_mod_cast h1
      calc (2 : ℚ) ^ Nat.log 2 ⌊z⁻¹⌋₊ = (((2 : ℕ) ^ Nat.log 2 ⌊z⁻¹⌋₊ : ℕ) : ℚ) := by push_cast; rfl
        _ ≤ z⁻¹ := le_trans h3 h2
    · rw [one_div]
      have h1 : ⌊z⁻¹⌋₊ < 2 ^ (Nat.log 2 ⌊z⁻¹⌋₊ + 1) :=
        Nat.lt_pow_succ_log_self (by norm_num) _
      have h2 : z⁻¹ < ((⌊z⁻¹⌋₊ : ℕ) : ℚ) + 1 := Nat.lt_floor_add_one _
      have h3 : ((⌊z⁻¹⌋₊ : ℕ) : ℚ) + 1 ≤ ((2 ^ (Nat.log 2 ⌊z⁻¹⌋₊ + 1) : ℕ) : ℚ) := by
        exact_mod_cast h1
      calc z⁻¹ < ((⌊z⁻¹⌋₊ : ℕ) : ℚ) + 1 := h2
        _ ≤ ((2 ^ (Nat.log 2 ⌊z⁻¹⌋₊ + 1) : ℕ) : ℚ) := h3
        _ = (2 : ℚ) ^ (Nat.log 2 ⌊z⁻¹⌋₊ + 1) := by push_cast; rfl

/-- C1 (amended), instance at zoom factor 1/2. -/
theorem closestPowerOf2_largest_pow_le_witness :
    (0 : ℚ) < 1 / 2 ∧
    ((1 : ℚ) ≤ 1 / 2 → closestPowerOf2 (1 / 2) = 1) ∧
    ((1 / 2 : ℚ) < 1 → ∃ k : ℕ, closestPowerOf2 (1 / 2) = 2 ^ k ∧
      (2 : ℚ) ^ k ≤ 1 / (1 / 2) ∧ 1 / (1 / 2 : ℚ) < 2 ^ (k + 1)) ∧
    closestPowerOf2 (3 / 10) = 2 :=
  ⟨by norm_num, closestPowerOf2_largest_pow_le (1 / 2) (by norm_num)⟩

/-! ### Tile alignment (lines 181-185) -/

theorem toInt_intCast (a : Int) : toInt (a : ℚ) = a := by
  unfold toInt
  split_ifs <;> simp

theorem floor_mul_le (q T : ℚ) (hT : 0 < T) :
    ((⌊q / T⌋ : Int) : ℚ) * T ≤ q ∧ q < ((⌊q / T⌋ : Int) : ℚ) * T + T := by
  have h1 : ((⌊q / T⌋ : Int) : ℚ) ≤ q / T := Int.floor_le _
  have h2 : q / T < ((⌊q / T⌋ : Int) : ℚ) + 1 := Int.lt_floor_add_one _
  constructor
  · exact (le_div_iff₀ hT).1 h1
  · have := (div_lt_iff₀ hT).1 h2
    linarith

theorem le_ceil_mul (q T : ℚ) (hT : 0 < T) :
    ((⌈q / T⌉ : Int) : ℚ) * T - T < q ∧ q ≤ ((⌈q / T⌉ : Int) : ℚ) * T := by
  have h1 : q / T ≤ ((⌈q / T⌉ : Int) : ℚ) := Int.le_ceil _
  have h2 : ((⌈q / T⌉ : Int) : ℚ) < q / T + 1 := Int.ceil_lt_add_one _
  constructor
  · have := (lt_div_iff₀ hT).1 (by linarith : ((⌈q / T⌉ : Int) : ℚ) - 1 < q / T)
    linarith
  · exact (div_le_iff₀ hT).1 h1

theorem toInt_mul_tileSize (a : Int) (n : ℕ) :
    toInt ((a : ℚ) * tileSize n) = a * 2 ^ n := by
  have : (a : ℚ) * tileSize n = ((a * 2 ^ n : Int) : ℚ) := by
    unfold tileSize
    push_cast
    rw [zpow_natCast]
  rw [this, toInt_intCast]

/-- C10: for every displayed region, every decimation factor `p = 2 ^ m` and every tile
size `T = 2 ^ n`, the corners of the pre-clamp tile rectangle are integer multiples of `T`
and round the decimated region outward by less than one tile. -/
theorem texRectOf_tile_aligned (roi : RectI) (m n : ℕ) :
    ((2 : Int) ^ n ∣ (texRectOf roi (2 ^ m) (tileSize n)).x1 ∧
     (2 : Int) ^ n ∣ (texRectOf roi (2 ^ m) (tileSize n)).y1 ∧
     (2 : Int) ^ n ∣ (texRectOf roi (2 ^ m) (tileSize n)).x2 ∧
     (2 : Int) ^ n ∣ (texRectOf roi (2 ^ m) (tileSize n)).y2) ∧
    (((texRectOf roi (2 ^ m) (tileSize n)).x1 : ℚ) ≤ (roi.x1 : ℚ) / 2 ^ m ∧
     (roi.x1 : ℚ) / 2 ^ m < ((texRectOf roi (2 ^ m) (tileSize n)).x1 : ℚ) + 2 ^ n) ∧
    (((texRectOf roi (2 ^ m) (tileSize n)).y1 : ℚ) ≤ (roi.y1 : ℚ) / 2 ^ m ∧
     (roi.y1 : ℚ) / 2 ^ m < ((texRectOf roi (2 ^ m) (tileSize n)).y1 : ℚ) + 2 ^ n) ∧
    (((texRectOf roi (2 ^ m) (tileSize n)).x2 : ℚ) - 2 ^ n < (roi.x2 : ℚ) / 2 ^ m ∧
     (roi.x2 : ℚ) / 2 ^ m ≤ ((texRectOf roi (2 ^ m) (tileSize n)).x2 : ℚ)) ∧
    (((texRectOf roi (2 ^ m) (tileSize n)).y2 : ℚ) - 2 ^ n < (roi.y2 : ℚ) / 2 ^ m ∧
     (roi.y2 : ℚ) / 2 ^ m ≤ ((texRectOf roi (2 ^ m) (tileSize n)).y2 : ℚ)) := by
  have hT : (0 : ℚ) < tileSize n := by unfold tileSize; positivity
  have hTn : tileSize n = (2 : ℚ) ^ n := by unfold tileSize; exact zpow_natCast 2 n
  simp only [texRectOf, toInt_mul_tileSize]
  refine ⟨⟨Dvd.intro_left _ rfl, Dvd.intro_left _ rfl, Dvd.intro_left _ rfl,
    Dvd.intro_left _ rfl⟩, ?_, ?_, ?_, ?_⟩
  · have := floor_mul_le ((roi.x1 : ℚ) / 2 ^ m) (tileSize n) hT
    rw [hTn] at this ⊢
    push_cast
    exact this
  · have := floor_mul_le ((roi.y1 : ℚ) / 2 ^ m) (tileSize n) hT
    rw [hTn] at this ⊢
    push_cast
    exact this
  · have := le_ceil_mul ((roi.x2 : ℚ) / 2 ^ m) (tileSize n) hT
    rw [hTn] at this ⊢
    push_cast
    exact this
  · have := le_ceil_mul ((roi.y2 : ℚ) / 2 ^ m) (tileSize n) hT
    rw [hTn] at this ⊢
    push_cast
    exact this


/-! ### Row splitting (lines 325-334) -/

theorem splitRowsLoop_exit (y2 h k : Int) (hk : ¬ k < y2) (fuel : Nat)
    (acc : List (Int × Int)) : splitRowsLoop y2 h fuel k acc = some acc := by
  cases fuel <;> simp [splitRowsLoop, hk]

theorem splitRowsLoop_step (y2 h k : Int) (hk : k < y2) (n : Nat) (acc : List (Int × Int)) :
    splitRowsLoop y2 h (n + 1) k acc =
      splitRowsLoop y2 h n (k + h) (acc ++ [(k, if k + h > y2 then y2 else k + h)]) := by
  simp [splitRowsLoop, hk]

theorem splitRowsLoop_no_fuel (y2 h k : Int) (hk : k < y2) (acc : List (Int × Int)) :
    splitRowsLoop y2 h 0 k acc = none := by
  simp [splitRowsLoop, hk]

/-- With a band height of zero the loop never leaves a row range that is not empty. -/
theorem splitRowsLoop_zero_height (y2 k : Int) (hk : k < y2) :
    ∀ (fuel : Nat) (acc : List (Int × Int)), splitRowsLoop y2 0 fuel k acc = none := by
  intro fuel
  induction fuel with
  | zero => intro acc; exact splitRowsLoop_no_fuel y2 0 k hk acc
  | succ n ih =>
    intro acc
    rw [splitRowsLoop_step y2 0 k hk, add_zero]
    exact ih _

/-- With a band height of at least one row the loop terminates within `y2 - k` iterations
and appends a contiguous chain of non-empty bands that ends at `y2`. -/
theorem splitRowsLoop_partition (y2 h : Int) (hh : 1 ≤ h) :
    ∀ (fuel : Nat) (k : Int) (acc : List (Int × Int)), (y2 - k).toNat ≤ fuel →
      ∃ bands, splitRowsLoop y2 h fuel k acc = some (acc ++ bands) ∧
        (k < y2 → IsPartition k y2 bands) ∧ (y2 ≤ k → bands = []) := by
  intro fuel
  induction fuel with
  | zero =>
    intro k acc hf
    have hk : ¬ k < y2 := by omega
    exact ⟨[], by rw [splitRowsLoop_exit y2 h k hk]; simp, fun h1 => absurd h1 hk, fun _ => rfl⟩
  | succ n ih =>
    intro k acc hf
    by_cases hk : k < y2
    · obtain ⟨rest, hrest, hpart, hnil⟩ :=
        ih (k + h) (acc ++ [(k, if k + h > y2 then y2 else k + h)]) (by omega)
      refine ⟨(k, if k + h > y2 then y2 else k + h) :: rest, ?_, ?_, fun h1 => by omega⟩
      · rw [splitRowsLoop_step y2 h k hk, hrest]
        simp
      · intro _
        refine ⟨rfl, ?_, ?_⟩
        · show k < if k + h > y2 then y2 else k + h
          split_ifs <;> omega
        · show IsPartition (if k + h > y2 then y2 else k + h) y2 rest
          by_cases hlt : k + h < y2
          · rw [if_neg (by omega)]
            exact hpart hlt
          · rw [hnil (by omega)]
            by_cases hgt : k + h > y2
            · rw [if_pos hgt]; rfl
            · rw [if_neg hgt]
              show k + h = y2
              omega
    · exact ⟨[], by rw [splitRowsLoop_exit y2 h k hk]; simp, fun h1 => absurd h1 hk,
        fun _ => rfl⟩

/-- The rows covered by a contiguous chain of bands from `a` to `b` are exactly `[a, b)`. -/
theorem IsPartition.covers : ∀ (bands : List (Int × Int)) (a b : Int),
    IsPartition a b bands →
      a ≤ b ∧ ∀ y : Int, (∃ band ∈ bands, band.1 ≤ y ∧ y < band.2) ↔ (a ≤ y ∧ y < b)
  | [], a, b, h => by
    have hab : a = b := h
    subst hab
    refine ⟨le_refl _, fun y => ⟨?_, fun hy => by omega⟩⟩
    rintro ⟨band, hmem, _⟩
    simp at hmem
  | band :: rest, a, b, h => by
    obtain ⟨h1, h2, h3⟩ := h
    obtain ⟨hle, hcov⟩ := IsPartition.covers rest band.2 b h3
    refine ⟨by omega, fun y => ⟨?_, fun hy => ?_⟩⟩
    · rintro ⟨c, hmem, hc1, hc2⟩
      rcases List.mem_cons.1 hmem with rfl | hmem
      · omega
      · have := (hcov y).1 ⟨c, hmem, hc1, hc2⟩
        omega
    · by_cases hy2 : y < band.2
      · exact ⟨band, List.mem_cons_self _ _, by omega, hy2⟩
      · obtain ⟨c, hmem, hc⟩ := (hcov y).2 ⟨by omega, hy.2⟩
        exact ⟨c, List.mem_cons_of_mem _ hmem, hc⟩

/-- Two different positions of a contiguous chain of bands hold disjoint row ranges. -/
theorem IsPartition.disjoint : ∀ (bands : List (Int × Int)) (a b : Int),
    IsPartition a b bands →
      List.Pairwise (fun c d : Int × Int => c.2 ≤ d.1) bands ∧ ∀ c ∈ bands, a ≤ c.1
  | [], _, _, _ => ⟨List.Pairwise.nil, fun c hc => by simp at hc⟩
  | band :: rest, a, b, h => by
    obtain ⟨h1, h2, h3⟩ := h
    obtain ⟨hpw, hlow⟩ := IsPartition.disjoint rest band.2 b h3
    refine ⟨List.Pairwise.cons (fun d hd => hlow d hd) hpw, fun c hc => ?_⟩
    rcases List.mem_cons.1 hc with rfl | hc
    · omega
    · have := hlow c hc
      omega

/-- Whenever the band height computed on line 325 is at least one row, the splitting loop
terminates (within `y2 - y1` iterations) and its bands form a contiguous chain of
non-empty ranges from `toRender.y1` to `toRender.y2`. -/
theorem splitRows_partition_of_pos (toRender : RectI) (W : Int)
    (hh : 1 ≤ rowsPerThread toRender W) (hy : toRender.y1 ≤ toRender.y2) :
    ∃ bands, splitRows toRender W (toRender.y2 - toRender.y1).toNat = some bands ∧
      IsPartition toRender.y1 toRender.y2 bands := by
  obtain ⟨bands, hb, hpart, hnil⟩ :=
    splitRowsLoop_partition toRender.y2 _ hh (toRender.y2 - toRender.y1).toNat toRender.y1 []
      (le_refl _)
  refine ⟨bands, by simpa [splitRows] using hb, ?_⟩
  by_cases hlt : toRender.y1 < toRender.y2
  · exact hpart hlt
  · have heq : toRender.y1 = toRender.y2 := by omega
    rw [hnil (by omega)]
    exact heq

theorem rowsPerThread_zero_width : rowsPerThread ⟨0, 0, 0, 1⟩ 1 = 0 := by
  unfold rowsPerThread
  rw [Int.ceil_eq_iff]
  norm_num

/-- C2 (failing input): for the region `x ∈ [0,0)`, `y ∈ [0,1)` and one worker, the band
height of line 325 is zero and the splitting loop never exits, whatever the fuel. -/
theorem splitRows_zero_width_diverges :
    rowsPerThread ⟨0, 0, 0, 1⟩ 1 = 0 ∧ ∀ fuel : Nat, splitRows ⟨0, 0, 0, 1⟩ 1 fuel = none := by
  refine ⟨rowsPerThread_zero_width, fun fuel => ?_⟩
  unfold splitRows
  rw [rowsPerThread_zero_width]
  exact splitRowsLoop_zero_height 1 0 (by norm_num) fuel []

theorem rowsPerThread_wide : rowsPerThread ⟨0, 0, 100, 10⟩ 4 = 25 := by
  unfold rowsPerThread
  rw [Int.ceil_eq_iff]
  norm_num

/-- C5 (failing input): for a region of 100 columns and 10 rows and 4 workers the band
height of line 325 is 25 (the ceiling of columns over workers), not `ceil (10 / 4) = 3`,
and the ten rows end up in a single band. -/
theorem rowsPerThread_from_columns :
    rowsPerThread ⟨0, 0, 100, 10⟩ 4 = 25 ∧
    (⌈(((10 : Int) - 0 : Int) : ℚ) / ((4 : Int) : ℚ)⌉ : Int) = 3 ∧
    splitRows ⟨0, 0, 100, 10⟩ 4 10 = some [(0, 10)] := by
  refine ⟨rowsPerThread_wide, ?_, ?_⟩
  · rw [Int.ceil_eq_iff]
    norm_num
  · unfold splitRows
    rw [rowsPerThread_wide]
    decide

theorem rowsPerThread_six : rowsPerThread ⟨0, 0, 6, 6⟩ 2 = 3 := by
  unfold rowsPerThread
  rw [Int.ceil_eq_iff]
  norm_num

/-- C3 (failing input): with decimation 2, texture rect starting at row 0 and the region
`[0,6) × [0,6)` split for 2 workers, the bands are `(0,3)` and `(3,6)`; the first writes
destination rows 0 and 1, the second destination rows 1 and 2, so row 1 is written by
both. -/
theorem dstRows_overlap :
    splitRows ⟨0, 0, 6, 6⟩ 2 6 = some [(0, 3), (3, 6)] ∧
    dstRows 0 2 (0, 3) 3 = some [0, 1] ∧
    dstRows 0 2 (3, 6) 3 = some [1, 2] ∧
    ∃ row : Int, row ∈ [0, 1] ∧ row ∈ [1, 2] := by
  refine ⟨?_, by decide, by decide, ⟨1, by decide, by decide⟩⟩
  unfold splitRows
  rw [rowsPerThread_six]
  decide


/-! ### Channel selection and exposure (lines 379-418, 459-466, 523-534) -/

/-- C4 (failing input): in `LUMINANCE` mode the three offsets stay 0, so the luma
combination is taken over three copies of the exposure-scaled red sample; for the pure
green pixel `(0, 1, 0, 1)` at exposure 1 both conversion paths produce 0 where the luma of
the pixel is 0.587. -/
theorem luminance_reads_red_only :
    (∀ (src_pixels : Int → ℚ) (srcIndex : Int) (e : ℚ),
      rgb8 src_pixels srcIndex (channelSel .LUMINANCE) e =
        (src_pixels (srcIndex * 4) * e, src_pixels (srcIndex * 4) * e,
          src_pixels (srcIndex * 4) * e)) ∧
    renderFunctorRgb false .LUMINANCE 1 greenLine 0 = (0, 0, 0) ∧
    renderFunctorRgb true .LUMINANCE 1 greenLine 0 = (0, 0, 0) ∧
    (0.299 * (1 * greenLine 0) + 0.587 * (1 * greenLine 1) + 0.114 * (1 * greenLine 2) : ℚ)
      = 0.587 := by
  refine ⟨fun src_pixels srcIndex e => ?_, ?_, ?_, ?_⟩
  · simp only [rgb8, channelSel, add_zero, if_true]
    have : (0.299 : ℚ) * (src_pixels (srcIndex * 4) * e) +
        0.587 * (src_pixels (srcIndex * 4) * e) + 0.114 * (src_pixels (srcIndex * 4) * e)
        = src_pixels (srcIndex * 4) * e := by ring
    rw [this]
  · norm_num [renderFunctorRgb, rgb8, channelSel, greenLine]
  · norm_num [renderFunctorRgb, rgba32, channelSel, greenLine]
  · norm_num [greenLine]

/-- C6 (as stated, refuted): with `RGBA` selection, exposure 2 and a white pixel the float
path writes `(1, 1, 1, 1)`, not `(2, 2, 2, 1)`. -/
theorem float_path_ignores_exposure :
    rgba32 whiteLine 0 (channelSel .RGBA) = (1, 1, 1, 1) ∧
    renderFunctorRgb true .RGBA 2 whiteLine 0 = (1, 1, 1) ∧
    renderFunctorRgb true .RGBA 2 whiteLine 0 ≠
      (2 * whiteLine 0, 2 * whiteLine 1, 2 * whiteLine 2) := by
  have h2 : renderFunctorRgb true .RGBA 2 whiteLine 0 = (1, 1, 1) := by
    simp [renderFunctorRgb, rgba32, channelSel, whiteLine]
  refine ⟨?_, h2, ?_⟩
  · simp [rgba32, channelSel, whiteLine]
  · rw [h2]
    intro h
    have h1 := congrArg Prod.fst h
    norm_num [whiteLine] at h1

/-- C6 (amended): in the 8-bit path every selected source sample is multiplied by the
exposure, the luminance combination is taken over the products and the colour-space
transform is applied to the result; the float path writes the selected samples
unscaled, `(R, G, B, 1.0)` for `RGBA`, whatever the exposure. -/
theorem exposure_scaling (src_pixels : Int → ℚ) (i : Int) (e : ℚ) :
    renderFunctorRgb false .RGBA e src_pixels i =
      (src_pixels (i * 4) * e, src_pixels (i * 4 + 1) * e, src_pixels (i * 4 + 2) * e) ∧
    renderFunctorRgb false .R e src_pixels i =
      (src_pixels (i * 4) * e, src_pixels (i * 4) * e, src_pixels (i * 4) * e) ∧
    renderFunctorRgb false .G e src_pixels i =
      (src_pixels (i * 4 + 1) * e, src_pixels (i * 4 + 1) * e, src_pixels (i * 4 + 1) * e) ∧
    renderFunctorRgb false .B e src_pixels i =
      (src_pixels (i * 4 + 2) * e, src_pixels (i * 4 + 2) * e, src_pixels (i * 4 + 2) * e) ∧
    renderFunctorRgb false .A e src_pixels i =
      (src_pixels (i * 4 + 3) * e, src_pixels (i * 4 + 3) * e, src_pixels (i * 4 + 3) * e) ∧
    (∀ ro go bo : Int,
      rgb8 src_pixels i { rOffset := ro, gOffset := go, bOffset := bo, luminance := true } e =
        (0.299 * (src_pixels (i * 4 + ro) * e) + 0.587 * (src_pixels (i * 4 + go) * e) +
            0.114 * (src_pixels (i * 4 + bo) * e),
          0.299 * (src_pixels (i * 4 + ro) * e) + 0.587 * (src_pixels (i * 4 + go) * e) +
            0.114 * (src_pixels (i * 4 + bo) * e),
          0.299 * (src_pixels (i * 4 + ro) * e) + 0.587 * (src_pixels (i * 4 + go) * e) +
            0.114 * (src_pixels (i * 4 + bo) * e))) ∧
    (∀ (lut : ℚ → Nat) (f : ℚ → Nat) (sel : ChannelSel) (p : Int) (backward : Bool)
        (s : Walk),
      (walkBody (some lut) f src_pixels sel e p backward s).error_r =
          errorStep s.error_r (lut (rgb8 src_pixels s.srcIndex sel e).1) ∧
      (walkBody (some lut) f src_pixels sel e p backward s).error_g =
          errorStep s.error_g (lut (rgb8 src_pixels s.srcIndex sel e).2.1) ∧
      (walkBody (some lut) f src_pixels sel e p backward s).error_b =
          errorStep s.error_b (lut (rgb8 src_pixels s.srcIndex sel e).2.2)) ∧
    renderFunctorRgb true .RGBA e src_pixels i =
      (src_pixels (i * 4), src_pixels (i * 4 + 1), src_pixels (i * 4 + 2)) ∧
    rgba32 src_pixels (i * 4) (channelSel .RGBA) =
      (src_pixels (i * 4), src_pixels (i * 4 + 1), src_pixels (i * 4 + 2), 1) := by
  refine ⟨?_, ?_, ?_, ?_, ?_, ?_, ?_, ?_, ?_⟩
  · simp [renderFunctorRgb, rgb8, channelSel]
  · simp [renderFunctorRgb, rgb8, channelSel]
  · simp [renderFunctorRgb, rgb8, channelSel]
  · simp [renderFunctorRgb, rgb8, channelSel]
  · simp [renderFunctorRgb, rgb8, channelSel]
  · intro ro go bo
    simp [rgb8]
  · intro lut f sel p backward s
    cases backward <;> simp [walkBody]
  · simp [renderFunctorRgb, rgba32, channelSel]
  · simp [rgba32, channelSel]

/-! ### Error-carry accumulator (lines 448-483) -/

theorem errorStep_le (error v : Nat) (hv : v ≤ 0xFF00) : errorStep error v ≤ 0xFFFF := by
  unfold errorStep
  have h1 : error &&& 0xff ≤ 0xff := Nat.and_le_right
  have h2 : ((error &&& 0xff) + v) % 2 ^ 32 ≤ (error &&& 0xff) + v := Nat.mod_le _ _
  omega

theorem errorStep_no_wrap (error v : Nat) (hv : v ≤ 0xFF00) :
    errorStep error v = (error &&& 0xff) + v := by
  unfold errorStep
  have h1 : error &&& 0xff ≤ 0xff := Nat.and_le_right
  exact Nat.mod_eq_of_lt (by omega)

theorem emitted_of_le (acc : Nat) (h : acc ≤ 0xFFFF) :
    acc >>> 8 < 256 ∧ emitted acc = acc >>> 8 := by
  have h1 : acc >>> 8 < 256 := by
    rw [Nat.shiftRight_eq_div_pow]
    omega
  exact ⟨h1, Nat.mod_eq_of_lt h1⟩

theorem errorTrace_le : ∀ (vs : List Nat) (error : Nat), (∀ v ∈ vs, v ≤ 0xFF00) →
    ∀ acc ∈ errorTrace error vs, acc ≤ 0xFFFF
  | [], _, _, acc, hacc => by simp [errorTrace] at hacc
  | v :: vs, error, hvs, acc, hacc => by
    simp only [errorTrace, List.mem_cons] at hacc
    rcases hacc with rfl | hacc
    · exact errorStep_le error v (hvs v (List.mem_cons_self _ _))
    · exact errorTrace_le vs _ (fun w hw => hvs w (List.mem_cons_of_mem _ hw)) acc hacc

/-- C7: for every sequence of transform outputs in `0..0xFF00`, every value taken by the
accumulator started at `0x80` is at most `0xFFFF` (the assertion `error < 0x10000` holds),
no addition wraps, and the emitted sample `acc >> 8` fits in 8 bits. -/
theorem errorTrace_bound (vs : List Nat) (hvs : ∀ v ∈ vs, v ≤ 0xFF00) :
    (errorTrace 0x80 vs).length = vs.length ∧
    ∀ acc ∈ errorTrace 0x80 vs,
      acc ≤ 0xFFFF ∧ acc < 0x10000 ∧ acc >>> 8 < 256 ∧ emitted acc = acc >>> 8 := by
  constructor
  · generalize 0x80 = error
    induction vs generalizing error with
    | nil => rfl
    | cons v vs ih =>
      simp only [errorTrace, List.length_cons]
      rw [ih (fun w hw => hvs w (List.mem_cons_of_mem _ hw))]
  · intro acc hacc
    have h := errorTrace_le vs 0x80 hvs acc hacc
    exact ⟨h, by omega, emitted_of_le acc h⟩

/-- C7, instance on the sequence `0xFF00, 0xFF00, 0x1234`. -/
theorem errorTrace_bound_witness :
    (∀ v ∈ [0xFF00, 0xFF00, 0x1234], v ≤ 0xFF00) ∧
    (errorTrace 0x80 [0xFF00, 0xFF00, 0x1234]).length = [0xFF00, 0xFF00, 0x1234].length ∧
    ∀ acc ∈ errorTrace 0x80 [0xFF00, 0xFF00, 0x1234],
      acc ≤ 0xFFFF ∧ acc < 0x10000 ∧ acc >>> 8 < 256 ∧ emitted acc = acc >>> 8 :=
  ⟨by decide, errorTrace_bound [0xFF00, 0xFF00, 0x1234] (by decide)⟩

/-- One iteration of the 8-bit walk keeps the assertion of line 479 true when the
colour-space transform stays within `0..0xFF00`. -/
theorem walkBody_assertOk (lut : ℚ → Nat) (hl : ∀ q, lut q ≤ 0xFF00) (f : ℚ → Nat)
    (src_pixels : Int → ℚ) (sel : ChannelSel) (e : ℚ) (p : Int) (backward : Bool) (s : Walk)
    (hs : s.assertOk = true) :
    (walkBody (some lut) f src_pixels sel e p backward s).assertOk = true := by
  have hr := errorStep_le s.error_r _ (hl (rgb8 src_pixels s.srcIndex sel e).1)
  have hg := errorStep_le s.error_g _ (hl (rgb8 src_pixels s.srcIndex sel e).2.1)
  have hb := errorStep_le s.error_b _ (hl (rgb8 src_pixels s.srcIndex sel e).2.2)
  cases backward <;> simp [walkBody, hs] <;> omega

/-- The assertion of line 479 never fails along a walk of `scaleToTexture8bits` when the
colour-space transform stays within `0..0xFF00`. -/
theorem walkLoop_assertOk (lut : ℚ → Nat) (hl : ∀ q, lut q ≤ 0xFF00) (f : ℚ → Nat)
    (src_pixels : Int → ℚ) (sel : ChannelSel) (e : ℚ) (t : TextureRect) (p : Int)
    (backward : Bool) :
    ∀ (fuel : Nat) (s s1 : Walk), s.assertOk = true →
      walkLoop (some lut) f src_pixels sel e t p backward fuel s = some s1 →
      s1.assertOk = true := by
  intro fuel
  induction fuel with
  | zero =>
    intro s s1 hs h
    unfold walkLoop at h
    split_ifs at h <;> simp_all
  | succ n ih =>
    intro s s1 hs h
    unfold walkLoop at h
    split_ifs at h
    · simp_all
    · exact ih _ s1 (walkBody_assertOk lut hl f src_pixels sel e p backward s hs) h
    · simp_all


/-! ### Display handoff (lines 558-574) -/

theorem uploads_append : ∀ (a b : List Event), uploads (a ++ b) = uploads a ++ uploads b
  | [], b => rfl
  | e :: a, b => by
    cases e <;> simp [uploads, uploads_append a b]

theorem updateViewer_not_aborted (st : ViewerState) :
    (updateViewer false st).1 = { st with _pboIndex := Int.tmod (st._pboIndex + 1) 2 } ∧
    uploads (updateViewer false st).2 = [st._pboIndex] := by
  simp [updateViewer, uploads]

theorem updateViewer_aborted (st : ViewerState) :
    (updateViewer true st).1 = st ∧ uploads (updateViewer true st).2 = [] := by
  simp [updateViewer, uploads]

theorem tmod_succ_parity (j : Nat) :
    Int.tmod (((j % 2 : Nat) : Int) + 1) 2 = (((j + 1) % 2 : Nat) : Int) := by
  rcases Nat.mod_two_eq_zero_or_one j with h | h
  · have h1 : (j + 1) % 2 = 1 := by omega
    rw [h, h1]
    decide
  · have h1 : (j + 1) % 2 = 0 := by omega
    rw [h, h1]
    decide

/-- Along any sequence of handoffs the uploads use the indices `j, j+1, j+2, ...` modulo
2, one per handoff that does not observe the abort flag. -/
theorem updateViewerSeq_uploads : ∀ (aborts : List Bool) (st : ViewerState) (j : Nat),
    st._pboIndex = ((j % 2 : Nat) : Int) →
      uploads (updateViewerSeq aborts st).2 =
        (List.range (aborts.count false)).map (fun k => (((j + k) % 2 : Nat) : Int))
  | [], st, j, _ => by simp [updateViewerSeq, uploads]
  | true :: rest, st, j, hj => by
    simp only [updateViewerSeq, uploads_append, (updateViewer_aborted st).1,
      (updateViewer_aborted st).2, List.nil_append]
    rw [updateViewerSeq_uploads rest st j hj]
    simp
  | false :: rest, st, j, hj => by
    simp only [updateViewerSeq, uploads_append, (updateViewer_not_aborted st).1,
      (updateViewer_not_aborted st).2]
    rw [updateViewerSeq_uploads rest _ (j + 1) (by simp only [hj]; exact tmod_succ_parity j)]
    simp only [List.count_cons_self, List.range_succ_eq_map, List.map_cons, List.map_map,
      hj, Nat.add_zero, List.singleton_append]
    congr 1
    apply List.map_congr_left
    intro k _
    simp only [Function.comp, Nat.succ_eq_add_one]
    congr 2
    omega

/-- C9: from a freshly constructed viewer, the `k`-th of `N` consecutive handoffs that do
not observe the abort flag uploads with buffer index `k mod 2` (the sequence 0,1,0,1,...);
a handoff that observes the abort flag uploads nothing and leaves the state, hence the
index, unchanged. -/
theorem pboIndex_alternates (N : Nat) :
    ViewerState.init._pboIndex = 0 ∧
    uploads (updateViewerSeq (List.replicate N false) ViewerState.init).2 =
      (List.range N).map (fun k => ((k % 2 : Nat) : Int)) ∧
    (∀ st : ViewerState,
      (updateViewer true st).1 = st ∧ uploads (updateViewer true st).2 = [] ∧
        ∀ i, Event.transferBufferFromRAMtoGPU i ∉ (updateViewer true st).2) := by
  refine ⟨rfl, ?_, fun st => ⟨(updateViewer_aborted st).1, (updateViewer_aborted st).2, ?_⟩⟩
  · have h := updateViewerSeq_uploads (List.replicate N false) ViewerState.init 0 rfl
    simpa using h
  · intro i
    simp [updateViewer]

/-! ### Abort checkpoint after the upstream render (lines 304-319) -/

theorem closestPowerOf2_one : closestPowerOf2 1 = 1 := by
  simp [closestPowerOf2]

theorem tileSize_zero : tileSize 0 = 1 := by
  simp [tileSize]

theorem texRectOf_unit : texRectOf ⟨0, 0, 2, 2⟩ 1 1 = ⟨0, 0, 2, 2⟩ := by
  norm_num [texRectOf, toInt]

theorem scaleRect_one (r : RectI) : scaleRect r 1 = r := by
  simp [scaleRect, toInt_intCast]

/-- The run of `renderViewer` on `abortAfterRenderEnv`. -/
theorem renderViewer_abortAfterRenderEnv :
    renderViewer abortAfterRenderEnv ViewerState.init false true 0 =
      some { status := Status.StatOK
             events := [Event.setRegionOfDefinition ⟨0, 0, 2, 2⟩, Event.getTextureFromCache,
               Event.notifyInputNIsRendering, Event.renderRoI ⟨0, 0, 2, 2⟩ false,
               Event.notifyInputNIsFinishedRendering, Event.removeFromViewerCache true]
             state := ViewerState.init } := by
  simp [renderViewer, renderTile, renderMiss, abortAfterRenderEnv, closestPowerOf2_one,
    tileSize_zero, texRectOf_unit, scaleRect_one, RectI.width, RectI.height, ViewerState.init]

/-- C8 (as stated, refuted): on a request whose abort flag is raised right after the
upstream render returned an image, `renderViewer` returns `StatOK`, not an aborted
status. -/
theorem abort_after_render_status_not_aborted :
    abortAfterRenderEnv.renderRoINonNull = true ∧
    abortAfterRenderEnv.abortedAfterRender = true ∧
    (renderViewer abortAfterRenderEnv ViewerState.init false true 0).map Outcome.status =
      some Status.StatOK ∧
    (renderViewer abortAfterRenderEnv ViewerState.init false true 0).map Outcome.status ≠
      some Status.StatAborted := by
  rw [renderViewer_abortAfterRenderEnv]
  simp [abortAfterRenderEnv]


/-- The calls recorded by the tail of `renderViewer` are the earlier ones followed by
display calls only. -/
theorem handoff_events_mem (env : Env) (st : ViewerState) (events : List Event) (e : Event)
    (he : e ∈ (handoff env st events).events) :
    e ∈ events ∨ e = Event.makeOpenGLcontextCurrent ∨
      (∃ i, e = Event.transferBufferFromRAMtoGPU i) ∨ e = Event.updateColorPicker ∨
      e = Event.redraw := by
  unfold handoff updateViewer at he
  split_ifs at he <;>
    simp only [List.mem_append, List.mem_cons, List.mem_singleton, List.not_mem_nil,
      or_false] at he <;> aesop

/-- When the upstream render returns an image and the abort flag is seen right after it,
the rendering branch returns `StatOK` after, at most, the buffer set-up, the upstream
render and the removal of `cachedFrame` from the viewer cache. -/
theorem renderMiss_abort_after_render (env : Env) (st : ViewerState) (events : List Event)
    (cachedFrame byPassCache : Bool) (texRectClipped : RectI) (bytesCount : Int)
    (singleThreaded : Bool) (fuel : Nat)
    (hnn : env.renderRoINonNull = true) (hab : env.abortedAfterRender = true) :
    ∃ out, renderMiss env st events cachedFrame byPassCache texRectClipped bytesCount
        singleThreaded fuel = some out ∧
      out.status = Status.StatOK ∧ out.state._pboIndex = st._pboIndex ∧
      ∃ mid, (∀ e ∈ mid, e = Event.freeBuffer ∨ e = Event.mallocBuffer bytesCount) ∧
        (out.events = events ++ mid ∨
          ∃ w, out.events = events ++ mid ++ [Event.notifyInputNIsRendering,
            Event.renderRoI w byPassCache, Event.notifyInputNIsFinishedRendering,
            Event.removeFromViewerCache cachedFrame]) := by
  unfold renderMiss
  simp only [hnn, hab, Bool.not_true, if_true, Bool.false_eq_true, if_false]
  have hmid : ∀ e ∈ (if st._mustFreeBuffer = true then [Event.freeBuffer] else []) ++
      (if (byPassCache || env.userRoIEnabled) = true then [Event.mallocBuffer bytesCount]
        else []), e = Event.freeBuffer ∨ e = Event.mallocBuffer bytesCount := by
    intro e he
    rcases List.mem_append.1 he with h | h
    · split_ifs at h <;> simp_all
    · split_ifs at h <;> simp_all
  by_cases hc : (env.userRoIEnabled && !(env.intersect texRectClipped env.userRoI).1) = true
  · rw [if_pos hc]
    exact ⟨_, rfl, rfl, rfl, _, hmid, Or.inl (by simp [List.append_assoc])⟩
  · rw [if_neg hc]
    exact ⟨_, rfl, rfl, rfl, _, hmid,
      Or.inr ⟨if env.userRoIEnabled = true then (env.intersect texRectClipped env.userRoI).2
        else texRectClipped, by simp [List.append_assoc]⟩⟩

/-- C8 (amended): whenever the upstream render returns a non-null image and the abort
flag is observed set at the checkpoint that follows it, `renderViewer` returns (without
entering the splitting loop), and if the upstream render was invoked in that run the
status is `StatOK`, the last call is `removeFromViewerCache(cachedFrame)` — which evicts
the entry reserved by the lookup whenever a lookup took place —, no pixel conversion runs
and nothing is handed to the display (no `updateViewer`, no upload, buffer index
unchanged). -/
theorem renderViewer_abort_after_render (env : Env) (st : ViewerState)
    (fitToViewer singleThreaded : Bool) (fuel : Nat)
    (hnn : env.renderRoINonNull = true) (hab : env.abortedAfterRender = true) :
    ∃ out, renderViewer env st fitToViewer singleThreaded fuel = some out ∧
      ((∃ w b, Event.renderRoI w b ∈ out.events) →
        out.status = Status.StatOK ∧
        out.events.getLast? =
          some (Event.removeFromViewerCache (!st._forceRender && !env.userRoIEnabled)) ∧
        (Event.getTextureFromCache ∈ out.events →
          Event.removeFromViewerCache true ∈ out.events) ∧
        (∀ f y, Event.scaleToTexture f y ∉ out.events) ∧
        Event.makeOpenGLcontextCurrent ∉ out.events ∧
        (∀ i, Event.transferBufferFromRAMtoGPU i ∉ out.events) ∧
        out.state._pboIndex = st._pboIndex) := by
  unfold renderViewer
  by_cases h1 : env.abortedAtEntry = true
  · exact ⟨_, by rw [if_pos h1], by simp⟩
  rw [if_neg h1]
  by_cases h2 : env.rodStatus = Status.StatFailed
  · exact ⟨_, by rw [if_pos h2], by simp⟩
  rw [if_neg h2]
  simp only []
  generalize (if fitToViewer = true then env.zoomFactorAfterFit else env.zoomFactor) = z
  generalize texRectOf env.roi (closestPowerOf2 z) (tileSize env.tilesPowerOf2) = texRect
  generalize (env.intersect (scaleRect texRect (closestPowerOf2 z)) env.rod).2 = clipped
  generalize textureRectOf texRect clipped env.rod (closestPowerOf2 z) = textureRect
  have hev1 : ∀ e ∈ (if fitToViewer = true then [Event.fitImageToFormat] else []) ++
      [Event.setRegionOfDefinition env.rod],
      e = Event.fitImageToFormat ∨ e = Event.setRegionOfDefinition env.rod := by
    intro e he
    rcases List.mem_append.1 he with h | h
    · split_ifs at h <;> simp_all
    · simp_all
  generalize (if fitToViewer = true then [Event.fitImageToFormat] else []) ++
      [Event.setRegionOfDefinition env.rod] = ev1 at hev1 ⊢
  by_cases h3 : texRect.width = 0 ∨ texRect.height = 0
  · rw [if_pos h3]
    refine ⟨_, rfl, ?_⟩
    rintro ⟨w, b, hmem⟩
    rcases hev1 _ hmem with h | h <;> cases h
  rw [if_neg h3]
  unfold renderTile
  simp only []
  by_cases h4 : (!st._forceRender && !env.userRoIEnabled && env.isCached) = true
  · rw [if_pos h4]
    refine ⟨_, rfl, ?_⟩
    rintro ⟨w, b, hmem⟩
    exfalso
    have hl : (!st._forceRender && !env.userRoIEnabled) = true := by
      revert h4
      cases (!st._forceRender && !env.userRoIEnabled) <;> simp
    rw [hl] at hmem
    rcases handoff_events_mem env _ _ _ hmem with h | h | ⟨i, h⟩ | h | h
    · simp only [List.mem_append, List.mem_singleton, if_true] at h
      rcases h with (h | h) | h
      · rcases hev1 _ h with h | h <;> cases h
      · cases h
      · cases h
    · cases h
    · cases h
    · cases h
    · cases h
  · rw [if_neg h4]
    obtain ⟨out, hout, hstatus, hidx, mid, hmid, hevents⟩ :=
      renderMiss_abort_after_render env { st with _forceRender := false }
        (ev1 ++ (if (!st._forceRender && !env.userRoIEnabled) = true
          then [Event.getTextureFromCache] else []))
        (!st._forceRender && !env.userRoIEnabled) st._forceRender clipped
        (textureRect.w * textureRect.h * 4 * (if env.floatDepth = true then 4 else 1))
        singleThreaded fuel hnn hab
    refine ⟨out, hout, ?_⟩
    rintro ⟨w, b, hmem⟩
    have hquiet : ∀ e ∈ ev1 ++ (if (!st._forceRender && !env.userRoIEnabled) = true
          then [Event.getTextureFromCache] else []) ++ mid,
        e = Event.fitImageToFormat ∨ e = Event.setRegionOfDefinition env.rod ∨
          (e = Event.getTextureFromCache ∧ (!st._forceRender && !env.userRoIEnabled) = true) ∨
          e = Event.freeBuffer ∨
          e = Event.mallocBuffer
            (textureRect.w * textureRect.h * 4 * (if env.floatDepth = true then 4 else 1)) := by
      intro e he
      rcases List.mem_append.1 he with h | h
      · rcases List.mem_append.1 h with h | h
        · rcases hev1 e h with h | h <;> simp [h]
        · split_ifs at h with hl
          · simp only [List.mem_singleton] at h
            simp [h, hl]
          · simp at h
      · rcases hmid e h with h | h <;> simp [h]
    rcases hevents with hev | ⟨w1, hev⟩
    · exfalso
      rw [hev] at hmem
      rcases hquiet _ hmem with h | h | h | h | h <;> simp at h
    · refine ⟨hstatus, ?_, ?_, ?_, ?_, ?_, hidx⟩
      · rw [hev]
        simp
      · intro hg
        rw [hev] at hg ⊢
        rcases List.mem_append.1 hg with h | h
        · rcases hquiet _ h with h1 | h1 | h1 | h1 | h1
          · simp at h1
          · simp at h1
          · rw [h1.2]
            simp
          · simp at h1
          · simp at h1
        · simp at h
      · intro f y hy
        rw [hev] at hy
        rcases List.mem_append.1 hy with h | h
        · rcases hquiet _ h with h1 | h1 | h1 | h1 | h1 <;> simp at h1
        · simp at h
      · intro hy
        rw [hev] at hy
        rcases List.mem_append.1 hy with h | h
        · rcases hquiet _ h with h1 | h1 | h1 | h1 | h1 <;> simp at h1
        · simp at h
      · intro i hy
        rw [hev] at hy
        rcases List.mem_append.1 hy with h | h
        · rcases hquiet _ h with h1 | h1 | h1 | h1 | h1 <;> simp at h1
        · simp at h

/-- C8 (amended), instance on `abortAfterRenderEnv`: the upstream render is invoked, the
status is `StatOK`, the reserved entry is removed last, nothing is converted or
uploaded. -/
theorem renderViewer_abort_after_render_witness :
    abortAfterRenderEnv.renderRoINonNull = true ∧
    abortAfterRenderEnv.abortedAfterRender = true ∧
    ∃ out, renderViewer abortAfterRenderEnv ViewerState.init false true 0 = some out ∧
      (∃ w b, Event.renderRoI w b ∈ out.events) ∧
      out.status = Status.StatOK ∧
      out.events.getLast? = some (Event.removeFromViewerCache
        (!ViewerState.init._forceRender && !abortAfterRenderEnv.userRoIEnabled)) ∧
      (Event.getTextureFromCache ∈ out.events →
        Event.removeFromViewerCache true ∈ out.events) ∧
      (∀ f y, Event.scaleToTexture f y ∉ out.events) ∧
      Event.makeOpenGLcontextCurrent ∉ out.events ∧
      (∀ i, Event.transferBufferFromRAMtoGPU i ∉ out.events) ∧
      out.state._pboIndex = ViewerState.init._pboIndex := by
  obtain ⟨out, hout, himp⟩ :=
    renderViewer_abort_after_render abortAfterRenderEnv ViewerState.init false true 0 rfl rfl
  have hrun : ∃ w b, Event.renderRoI w b ∈ out.events := by
    have hev := renderViewer_abortAfterRenderEnv
    rw [hout] at hev
    cases hev
    exact ⟨⟨0, 0, 2, 2⟩, false, by simp⟩
  exact ⟨rfl, rfl, out, hout, hrun, himp hrun⟩


/-! ### Source columns read by the 8-bit walk (lines 436-494) -/

theorem ceilLog2_half : ceilLog2 (1 / 2) = -1 := by
  unfold ceilLog2
  have h2 : (1 : ℕ) < 2 := by norm_num
  have hpos : (0 : ℚ) < 1 / 2 := by norm_num
  apply le_antisymm
  · rw [← Int.le_zpow_iff_clog_le h2 hpos]
    norm_num
  · have : (-2 : ℤ) < Int.clog 2 (1 / 2 : ℚ) := by
      rw [← Int.zpow_lt_iff_lt_clog h2 hpos]
      norm_num
    omega

theorem closestPowerOf2_half : closestPowerOf2 (1 / 2) = 2 := by
  unfold closestPowerOf2
  rw [if_neg (by norm_num), ceilLog2_half]
  norm_num

theorem toInt_two : toInt 2 = 2 := by
  have h := toInt_intCast 2
  simpa using h

theorem ceil_half : (⌈(1 / 2 : ℚ)⌉ : Int) = 1 := by
  rw [Int.ceil_eq_iff]
  norm_num

theorem texRectOf_four : texRectOf ⟨0, 0, 4, 4⟩ 2 (tileSize 2) = ⟨0, 0, 4, 4⟩ := by
  have h4 : tileSize 2 = 4 := by norm_num [tileSize]
  have hc : (⌈((4 : ℚ) / 2) / 4⌉ : Int) = 1 := by
    rw [Int.ceil_eq_iff]
    norm_num
  have ht : toInt 4 = 4 := by
    have h := toInt_intCast 4
    simpa using h
  simp [texRectOf, h4, hc, ht, toInt]

/-- The texture rectangle of a 4 × 4 image shown whole at zoom 0.5 with tiles of 4 pixels:
source columns `[0, 4)`, decimation 2, texture width 4. -/
theorem textureRectFor_four :
    textureRectFor ⟨0, 0, 4, 4⟩ ⟨0, 0, 4, 4⟩ (1 / 2) 2 intersectRect =
      { x1 := 0, y1 := 0, x2 := 4, y2 := 4, w := 4, h := 4, closestPo2 := 2 } := by
  have hs : scaleRect ⟨0, 0, 4, 4⟩ 2 = ⟨0, 0, 8, 8⟩ := by
    have h8 : toInt 8 = 8 := by
      have h := toInt_intCast 8
      simpa using h
    norm_num [scaleRect, toInt, h8]
  have hi : intersectRect ⟨0, 0, 8, 8⟩ ⟨0, 0, 4, 4⟩ = (true, ⟨0, 0, 4, 4⟩) := by decide
  unfold textureRectFor
  simp only []
  rw [closestPowerOf2_half, texRectOf_four, hs, hi]
  simp [textureRectOf, RectI.width, RectI.height, toInt_two]


theorem walkBody_srcIndex (colorSpace : Option (ℚ → Nat)) (f : ℚ → Nat)
    (src_pixels : Int → ℚ) (sel : ChannelSel) (e : ℚ) (p : Int) (backward : Bool) (s : Walk) :
    (walkBody colorSpace f src_pixels sel e p backward s).reads = s.reads ++ [s.srcIndex] ∧
    (walkBody colorSpace f src_pixels sel e p backward s).dstIndex =
      (if backward then s.dstIndex - 1 else s.dstIndex + 1) ∧
    (walkBody colorSpace f src_pixels sel e p backward s).srcIndex =
      (if backward then s.srcIndex - p else s.srcIndex + p) := by
  cases backward <;> cases colorSpace <;> simp [walkBody]

/-- What the guard of line 454 does ensure: every source offset read by a directional
walk that starts with `srcIndex = dstIndex * closestPowerOf2` lies in `[0, x2 - x1]`, the
upper end included. -/
theorem walkLoop_reads_le (colorSpace : Option (ℚ → Nat)) (f : ℚ → Nat)
    (src_pixels : Int → ℚ) (sel : ChannelSel) (e : ℚ) (t : TextureRect) (p : Int)
    (hp : 0 ≤ p) (backward : Bool) :
    ∀ (fuel : Nat) (s s1 : Walk), s.srcIndex = s.dstIndex * p →
      (∀ r ∈ s.reads, 0 ≤ r ∧ r ≤ t.x2 - t.x1) →
      walkLoop colorSpace f src_pixels sel e t p backward fuel s = some s1 →
      ∀ r ∈ s1.reads, 0 ≤ r ∧ r ≤ t.x2 - t.x1 := by
  intro fuel
  induction fuel with
  | zero =>
    intro s s1 _ hr h
    unfold walkLoop at h
    split_ifs at h <;> simp_all
  | succ n ih =>
    intro s s1 hs hr h
    unfold walkLoop at h
    split_ifs at h with hd hsrc
    · simp_all
    · obtain ⟨hreads, hdst, hsrcIndex⟩ :=
        walkBody_srcIndex colorSpace f src_pixels sel e p backward s
      refine ih _ s1 ?_ ?_ h
      · rw [hdst, hsrcIndex, hs]
        cases backward <;> simp <;> ring
      · intro r hmem
        rw [hreads] at hmem
        rcases List.mem_append.1 hmem with hmem | hmem
        · exact hr r hmem
        · simp only [List.mem_singleton] at hmem
          subst hmem
          refine ⟨?_, not_lt.1 hsrc⟩
          rw [hs]
          exact mul_nonneg hd.2 hp
    · simp_all

/-- C12 (failing input): for the texture rectangle of a 4 × 4 image at zoom 0.5 with tiles
of 4 pixels (source columns `[0, 4)`, `w = 4`, decimation 2) and start column 0, which is a
possible draw of line 436, the forward walk reads the source offsets 0, 2 and 4: offset
`4 = x2 - x1` passes the test `srcIndex > x2 - x1` of line 454 and is read, one column
beyond the tile. -/
theorem walk_reads_column_x2 :
    textureRectFor ⟨0, 0, 4, 4⟩ ⟨0, 0, 4, 4⟩ (1 / 2) 2 intersectRect =
      { x1 := 0, y1 := 0, x2 := 4, y2 := 4, w := 4, h := 4, closestPo2 := 2 } ∧
    Int.tdiv (4 - 0) 2 = 2 ∧
    startColumn { x1 := 0, y1 := 0, x2 := 4, y2 := 4, w := 4, h := 4, closestPo2 := 2 } 2 0 =
      some 0 ∧
    (scanline8 none (fun _ => 0) whiteLine (channelSel .RGBA) 1
        { x1 := 0, y1 := 0, x2 := 4, y2 := 4, w := 4, h := 4, closestPo2 := 2 } 2 0 4).map
      (fun r => (r.1.reads, r.2.reads)) = some ([0, 2, 4], []) ∧
    ¬ ((4 : Int) < 4 - 0) := by
  refine ⟨textureRectFor_four, by decide, by decide, ?_, by decide⟩
  simp [scanline8, walkLoop, walkBody, walkInit]


/-! ### Start column of the 8-bit walk (line 436) -/

theorem toInt_two_pow (m : ℕ) : toInt ((2 : ℚ) ^ m) = 2 ^ m := by
  have h := toInt_intCast ((2 : Int) ^ m)
  simpa using h

/-- A start column, when line 436 yields one from a non-negative column extent and a
positive decimation factor, lies in `[0, (x2 - x1) / closestPowerOf2)`. -/
theorem startColumn_range (t : TextureRect) (p : Int) (rnd : Nat) (start : Int)
    (hp : 0 < p) (hx : 0 ≤ t.x2 - t.x1) (h : startColumn t p rnd = some start) :
    0 < (t.x2 - t.x1) / p ∧ 0 ≤ start ∧ start < (t.x2 - t.x1) / p := by
  unfold startColumn at h
  simp only [] at h
  rw [Int.tdiv_eq_ediv hx hp.le] at h
  have hnn : 0 ≤ (t.x2 - t.x1) / p := Int.ediv_nonneg hx hp.le
  split_ifs at h with h0
  have hpos : 0 < (t.x2 - t.x1) / p := lt_of_le_of_ne hnn (Ne.symm h0)
  rw [Int.tmod_eq_emod (Int.ofNat_nonneg rnd) hnn] at h
  cases h
  exact ⟨hpos, Int.emod_nonneg _ h0, Int.emod_lt_of_pos _ hpos⟩

/-- Whenever the modulus of line 436 is not zero and the clipped rectangle is no wider
than the region of definition and than the re-expanded tile, the start column drawn for
the texture rectangle of `renderViewer` lies in `[0, w)`. -/
theorem startColumn_lt_w (texRect clipped rod : RectI) (m : ℕ) (rnd : Nat) (start : Int)
    (h0 : 0 ≤ clipped.width) (hrod : clipped.width ≤ rod.width)
    (htex : clipped.width ≤ texRect.width * 2 ^ m)
    (h : startColumn (textureRectOf texRect clipped rod (2 ^ m))
      (textureRectOf texRect clipped rod (2 ^ m)).closestPo2 rnd = some start) :
    0 ≤ start ∧ start < (textureRectOf texRect clipped rod (2 ^ m)).w := by
  have hP : (0 : Int) < 2 ^ m := by positivity
  have hpo2 : (textureRectOf texRect clipped rod (2 ^ m)).closestPo2 = 2 ^ m := by
    simp [textureRectOf, toInt_two_pow]
  rw [hpo2] at h
  have hx : (textureRectOf texRect clipped rod (2 ^ m)).x2 -
      (textureRectOf texRect clipped rod (2 ^ m)).x1 = clipped.width := rfl
  obtain ⟨_, hs0, hs1⟩ := startColumn_range _ _ rnd start hP (by rw [hx]; exact h0) h
  rw [hx] at hs1
  have h1 : clipped.width / 2 ^ m ≤ rod.width := le_trans (Int.ediv_le_self _ h0) hrod
  have h2 : clipped.width / 2 ^ m ≤ texRect.width := Int.ediv_le_of_le_mul hP htex
  refine ⟨hs0, ?_⟩
  show start < if texRect.width > rod.width then rod.width else texRect.width
  split_ifs <;> omega

theorem texRectOf_one : texRectOf ⟨0, 0, 1, 1⟩ 2 (tileSize 0) = ⟨0, 0, 1, 1⟩ := by
  have h1 : tileSize 0 = 1 := by norm_num [tileSize]
  have hc : (⌈(2⁻¹ : ℚ)⌉ : Int) = 1 := by
    rw [Int.ceil_eq_iff]
    norm_num
  have ht : toInt 1 = 1 := by
    have h := toInt_intCast 1
    simpa using h
  simp [texRectOf, h1, hc, ht, toInt]

/-- The texture rectangle of a 1 × 1 image shown at zoom 0.5 with tiles of one pixel. -/
theorem textureRectFor_one :
    textureRectFor ⟨0, 0, 1, 1⟩ ⟨0, 0, 1, 1⟩ (1 / 2) 0 intersectRect =
      { x1 := 0, y1 := 0, x2 := 1, y2 := 1, w := 1, h := 1, closestPo2 := 2 } := by
  have hs : scaleRect ⟨0, 0, 1, 1⟩ 2 = ⟨0, 0, 2, 2⟩ := by
    norm_num [scaleRect, toInt_two, toInt]
  have hi : intersectRect ⟨0, 0, 2, 2⟩ ⟨0, 0, 1, 1⟩ = (true, ⟨0, 0, 1, 1⟩) := by decide
  unfold textureRectFor
  simp only []
  rw [closestPowerOf2_half, texRectOf_one, hs, hi]
  simp [textureRectOf, RectI.width, RectI.height, toInt_two]

/-- C13 (failing input): for a 1 × 1 image shown at zoom 0.5 with tiles of one pixel the
tile is not degenerate (pre-clamp width and height 1, `w = 1`), the texture rectangle has
source columns `[0, 1)` and decimation 2, and the modulus `(x2 - x1) / closestPowerOf2` of
line 436 is `1 / 2 = 0`: no start column is defined, whatever `rand()` returns. -/
theorem startColumn_modulus_zero :
    closestPowerOf2 (1 / 2) = 2 ∧
    (texRectOf ⟨0, 0, 1, 1⟩ (closestPowerOf2 (1 / 2)) (tileSize 0)).width = 1 ∧
    (texRectOf ⟨0, 0, 1, 1⟩ (closestPowerOf2 (1 / 2)) (tileSize 0)).height = 1 ∧
    textureRectFor ⟨0, 0, 1, 1⟩ ⟨0, 0, 1, 1⟩ (1 / 2) 0 intersectRect =
      { x1 := 0, y1 := 0, x2 := 1, y2 := 1, w := 1, h := 1, closestPo2 := 2 } ∧
    Int.tdiv (1 - 0) 2 = 0 ∧
    ∀ rnd : Nat,
      startColumn (textureRectFor ⟨0, 0, 1, 1⟩ ⟨0, 0, 1, 1⟩ (1 / 2) 0 intersectRect) 2 rnd =
        none := by
  refine ⟨closestPowerOf2_half, ?_, ?_, textureRectFor_one, by decide, fun rnd => ?_⟩
  · rw [closestPowerOf2_half, texRectOf_one]
    rfl
  · rw [closestPowerOf2_half, texRectOf_one]
    rfl
  · rw [textureRectFor_one]
    have hz : Int.tdiv 1 2 = 0 := by decide
    simp [startColumn, hz]


/-! ### Cache gate (lines 230-306) -/

theorem renderFunctorEvents_afterRender (env : Env) :
    ∀ (bands : List (Int × Int)) (e : Event), e ∈ renderFunctorEvents env bands →
      e.afterRender = true
  | [], e, he => by simp [renderFunctorEvents] at he
  | yRange :: rest, e, he => by
    unfold renderFunctorEvents at he
    split_ifs at he
    · exact renderFunctorEvents_afterRender env rest e he
    · rcases List.mem_cons.1 he with h | h
      · subst h
        rfl
      · exact renderFunctorEvents_afterRender env rest e h

theorem renderFunctorEvents_isCached (env : Env) (c : Bool) :
    ∀ bands : List (Int × Int),
      renderFunctorEvents { env with isCached := c } bands = renderFunctorEvents env bands
  | [] => rfl
  | yRange :: rest => by
    unfold renderFunctorEvents
    rw [renderFunctorEvents_isCached env c rest]

/-- The tail of `renderViewer` keeps the calls made so far, adds display calls only and
touches neither `_forceRender` nor `_mustFreeBuffer`. -/
theorem handoff_spec (env : Env) (st : ViewerState) (events : List Event) :
    (handoff env st events).state._forceRender = st._forceRender ∧
    (handoff env st events).state._mustFreeBuffer = st._mustFreeBuffer ∧
    ∃ tail, (handoff env st events).events = events ++ tail ∧
      ∀ e ∈ tail, e.afterRender = true := by
  unfold handoff updateViewer
  split_ifs
  · exact ⟨rfl, rfl, [], by simp, by simp⟩
  · refine ⟨rfl, rfl, _, rfl, ?_⟩
    intro e he
    simp only [List.mem_cons, List.mem_singleton, List.not_mem_nil, or_false] at he
    rcases he with h | h | h | h <;> subst h <;> rfl
  · refine ⟨rfl, rfl, _, rfl, ?_⟩
    intro e he
    simp only [List.mem_cons, List.mem_singleton, List.not_mem_nil, or_false] at he
    rcases he with h | h | h <;> subst h <;> rfl
  · exact ⟨rfl, rfl, [], by simp, by simp⟩


/-- Shape of every run of the rendering branch that returns: the earlier calls, then the
buffer set-up (a `malloc` whenever the cache is by-passed or the user region is enabled),
then either nothing more (user region enabled and missing the tile, status `StatOK`) or
the upstream render followed only by calls that come after it. -/
theorem renderMiss_spec (env : Env) (st : ViewerState) (events : List Event)
    (cachedFrame byPassCache : Bool) (clipped : RectI) (bytesCount : Int)
    (singleThreaded : Bool) (fuel : Nat) (out : Outcome)
    (h : renderMiss env st events cachedFrame byPassCache clipped bytesCount singleThreaded
      fuel = some out) :
    out.state._forceRender = st._forceRender ∧
    out.state._mustFreeBuffer = (byPassCache || env.userRoIEnabled) ∧
    ∃ mid tail, out.events = events ++ mid ++ tail ∧
      (∀ e ∈ mid, e = Event.freeBuffer ∨ e = Event.mallocBuffer bytesCount) ∧
      ((byPassCache || env.userRoIEnabled) = true → Event.mallocBuffer bytesCount ∈ mid) ∧
      (((env.userRoIEnabled && !(env.intersect clipped env.userRoI).1) = true ∧
          tail = [] ∧ out.status = Status.StatOK) ∨
        ((env.userRoIEnabled && !(env.intersect clipped env.userRoI).1) = false ∧
          ∃ w rest, tail = [Event.notifyInputNIsRendering, Event.renderRoI w byPassCache,
              Event.notifyInputNIsFinishedRendering] ++ rest ∧
            ∀ e ∈ rest, e.afterRender = true)) := by
  have hmid : ∀ e ∈ (if st._mustFreeBuffer = true then [Event.freeBuffer] else []) ++
      (if (byPassCache || env.userRoIEnabled) = true then [Event.mallocBuffer bytesCount]
        else []), e = Event.freeBuffer ∨ e = Event.mallocBuffer bytesCount := by
    intro e he
    rcases List.mem_append.1 he with h | h
    · split_ifs at h <;> simp_all
    · split_ifs at h <;> simp_all
  have hmalloc : (byPassCache || env.userRoIEnabled) = true →
      Event.mallocBuffer bytesCount ∈
        (if st._mustFreeBuffer = true then [Event.freeBuffer] else []) ++
        (if (byPassCache || env.userRoIEnabled) = true then [Event.mallocBuffer bytesCount]
          else []) := by
    intro hown
    rw [if_pos hown]
    simp
  unfold renderMiss at h
  simp only [] at h
  by_cases hc : (env.userRoIEnabled && !(env.intersect clipped env.userRoI).1) = true
  · rw [if_pos hc] at h
    obtain rfl := Option.some.inj h
    exact ⟨rfl, rfl, ((if st._mustFreeBuffer = true then [Event.freeBuffer] else []) ++
          (if (byPassCache || env.userRoIEnabled) = true then [Event.mallocBuffer bytesCount]
            else [])), [],
      by simp [List.append_assoc], hmid, hmalloc, Or.inl ⟨hc, rfl, rfl⟩⟩
  · rw [if_neg hc] at h
    have hc1 : (env.userRoIEnabled && !(env.intersect clipped env.userRoI).1) = false := by
      simpa using hc
    have hremove : ∀ e ∈ [Event.removeFromViewerCache cachedFrame],
        e.afterRender = true := by
      intro e he
      simp only [List.mem_singleton] at he
      subst he
      rfl
    by_cases hnn : (!env.renderRoINonNull) = true
    · rw [if_pos hnn] at h
      obtain rfl := Option.some.inj h
      refine ⟨rfl, rfl, ((if st._mustFreeBuffer = true then [Event.freeBuffer] else []) ++
                (if (byPassCache || env.userRoIEnabled) = true then [Event.mallocBuffer bytesCount]
                  else [])),
        [Event.notifyInputNIsRendering,
          Event.renderRoI (if env.userRoIEnabled = true then (env.intersect clipped env.userRoI).2 else clipped)
            byPassCache, Event.notifyInputNIsFinishedRendering] ++ [Event.removeFromViewerCache cachedFrame],
        ?_, hmid, hmalloc, Or.inr ⟨hc1, (if env.userRoIEnabled = true then (env.intersect clipped env.userRoI).2 else clipped),
          [Event.removeFromViewerCache cachedFrame], rfl, ?_⟩⟩
      · simp [List.append_assoc]
      · exact hremove
    · rw [if_neg hnn] at h
      by_cases hab : env.abortedAfterRender = true
      · rw [if_pos hab] at h
        obtain rfl := Option.some.inj h
        refine ⟨rfl, rfl, ((if st._mustFreeBuffer = true then [Event.freeBuffer] else []) ++
                  (if (byPassCache || env.userRoIEnabled) = true then [Event.mallocBuffer bytesCount]
                    else [])),
          [Event.notifyInputNIsRendering,
            Event.renderRoI (if env.userRoIEnabled = true then (env.intersect clipped env.userRoI).2 else clipped)
              byPassCache, Event.notifyInputNIsFinishedRendering] ++ [Event.removeFromViewerCache cachedFrame],
          ?_, hmid, hmalloc, Or.inr ⟨hc1, (if env.userRoIEnabled = true then (env.intersect clipped env.userRoI).2 else clipped),
            [Event.removeFromViewerCache cachedFrame], rfl, ?_⟩⟩
        · simp [List.append_assoc]
        · exact hremove
      · rw [if_neg hab] at h
        split at h
        · cases h
        · rename_i bands _
          by_cases hconv : env.abortedAfterConversion = true
          · rw [if_pos hconv] at h
            obtain rfl := Option.some.inj h
            refine ⟨rfl, rfl, ((if st._mustFreeBuffer = true then [Event.freeBuffer] else []) ++
                      (if (byPassCache || env.userRoIEnabled) = true then [Event.mallocBuffer bytesCount]
                        else [])),
              [Event.notifyInputNIsRendering,
                Event.renderRoI (if env.userRoIEnabled = true then (env.intersect clipped env.userRoI).2 else clipped)
                  byPassCache, Event.notifyInputNIsFinishedRendering] ++ (renderFunctorEvents env bands ++ [Event.removeFromViewerCache cachedFrame]),
              ?_, hmid, hmalloc, Or.inr ⟨hc1, (if env.userRoIEnabled = true then (env.intersect clipped env.userRoI).2 else clipped),
                (renderFunctorEvents env bands ++ [Event.removeFromViewerCache cachedFrame]), rfl, ?_⟩⟩
            · simp [List.append_assoc]
            · intro e he
              rcases List.mem_append.1 he with he | he
              · exact renderFunctorEvents_afterRender env bands e he
              · exact hremove e he
          · rw [if_neg hconv] at h
            obtain rfl := Option.some.inj h
            obtain ⟨hs1, hs2, tail, htail, hafter⟩ :=
              handoff_spec env
                { st with _mustFreeBuffer := byPassCache || env.userRoIEnabled }
                (events ++ (if st._mustFreeBuffer = true then [Event.freeBuffer] else []) ++
                  (if (byPassCache || env.userRoIEnabled) = true
                    then [Event.mallocBuffer bytesCount] else []) ++
                  [Event.notifyInputNIsRendering,
                    Event.renderRoI (if env.userRoIEnabled = true then (env.intersect clipped env.userRoI).2 else clipped) byPassCache,
                    Event.notifyInputNIsFinishedRendering] ++
                  renderFunctorEvents env bands ++
                  [Event.clearExceedingEntriesFromNodeCache])
            refine ⟨hs1, hs2, ((if st._mustFreeBuffer = true then [Event.freeBuffer] else []) ++
          (if (byPassCache || env.userRoIEnabled) = true then [Event.mallocBuffer bytesCount]
            else [])),
              [Event.notifyInputNIsRendering,
                Event.renderRoI (if env.userRoIEnabled = true then (env.intersect clipped env.userRoI).2 else clipped)
                  byPassCache, Event.notifyInputNIsFinishedRendering] ++
                (renderFunctorEvents env bands ++
                  [Event.clearExceedingEntriesFromNodeCache] ++ tail),
              ?_, hmid, hmalloc, Or.inr ⟨hc1, (if env.userRoIEnabled = true then (env.intersect clipped env.userRoI).2 else clipped),
                renderFunctorEvents env bands ++
                  [Event.clearExceedingEntriesFromNodeCache] ++ tail, rfl, ?_⟩⟩
            · rw [htail]
              simp [List.append_assoc]
            · intro e he
              rcases List.mem_append.1 he with he | he
              · rcases List.mem_append.1 he with he | he
                · exact renderFunctorEvents_afterRender env bands e he
                · simp only [List.mem_singleton] at he
                  subst he
                  rfl
              · exact hafter e he

theorem renderMiss_isCached (env : Env) (c : Bool) (st : ViewerState) (events : List Event)
    (cachedFrame byPassCache : Bool) (clipped : RectI) (bytesCount : Int)
    (singleThreaded : Bool) (fuel : Nat) :
    renderMiss { env with isCached := c } st events cachedFrame byPassCache clipped bytesCount
        singleThreaded fuel =
      renderMiss env st events cachedFrame byPassCache clipped bytesCount singleThreaded
        fuel := by
  unfold renderMiss
  simp only [renderFunctorEvents_isCached]
  rfl

/-- The cache gate on a tile that is not degenerate: the lookup happens exactly when the
force-render flag is clear and the user region disabled, the flag is clear afterwards,
and when the gate by-passes the cache the buffer is a fresh allocation owned by the
viewer and the upstream render is invoked unless the user region misses the tile. -/
theorem renderTile_gate (env : Env) (st : ViewerState) (ev1 : List Event)
    (clipped : RectI) (textureRect : TextureRect) (singleThreaded : Bool) (fuel : Nat)
    (out : Outcome)
    (hev1 : ∀ e ∈ ev1, e = Event.fitImageToFormat ∨ ∃ r, e = Event.setRegionOfDefinition r)
    (h : renderTile env st ev1 clipped textureRect singleThreaded fuel = some out) :
    (Event.getTextureFromCache ∈ out.events ↔
      (st._forceRender = false ∧ env.userRoIEnabled = false)) ∧
    out.state._forceRender = false ∧
    ((st._forceRender = true ∨ env.userRoIEnabled = true) →
      out.state._mustFreeBuffer = true ∧
      Event.mallocBuffer (textureRect.w * textureRect.h * 4 *
        (if env.floatDepth then 4 else 1)) ∈ out.events ∧
      ((env.userRoIEnabled && !(env.intersect clipped env.userRoI).1) = false →
        ∃ w, Event.renderRoI w st._forceRender ∈ out.events) ∧
      ((env.userRoIEnabled && !(env.intersect clipped env.userRoI).1) = true →
        out.status = Status.StatOK ∧ ∀ w b, Event.renderRoI w b ∉ out.events)) := by
  have hev1a : Event.getTextureFromCache ∉ ev1 := by
    intro hm
    rcases hev1 _ hm with h | ⟨r, h⟩ <;> cases h
  have hev1b : ∀ w b, Event.renderRoI w b ∉ ev1 := by
    intro w b hm
    rcases hev1 _ hm with h | ⟨r, h⟩ <;> cases h
  unfold renderTile at h
  simp only [] at h
  by_cases hcached : (!st._forceRender && !env.userRoIEnabled && env.isCached) = true
  · rw [if_pos hcached] at h
    obtain rfl := Option.some.inj h
    have hf : st._forceRender = false := by
      revert hcached
      cases st._forceRender <;> simp
    have hu : env.userRoIEnabled = false := by
      revert hcached
      cases env.userRoIEnabled <;> simp
    obtain ⟨hs1, _, tail, htail, _⟩ := handoff_spec env { st with _forceRender := false }
      (ev1 ++ (if (!st._forceRender && !env.userRoIEnabled) = true
        then [Event.getTextureFromCache] else []) ++ [Event.setOrAddProjectFormat])
    refine ⟨⟨fun _ => ⟨hf, hu⟩, fun _ => ?_⟩, hs1, fun hby => ?_⟩
    · rw [htail]
      simp [hf, hu]
    · rcases hby with hby | hby
      · rw [hf] at hby
        cases hby
      · rw [hu] at hby
        cases hby
  · rw [if_neg hcached] at h
    obtain ⟨hfr, hmf, mid, tail, hev, hmid, hmalloc, hcase⟩ := renderMiss_spec _ _ _ _ _ _ _ _ _ _ h
    have hmid1 : Event.getTextureFromCache ∉ mid := by
      intro hm
      rcases hmid _ hm with h | h <;> cases h
    have hmid2 : ∀ w b, Event.renderRoI w b ∉ mid := by
      intro w b hm
      rcases hmid _ hm with h | h <;> cases h
    have htail1 : Event.getTextureFromCache ∉ tail := by
      intro hm
      rcases hcase with ⟨_, ht, _⟩ | ⟨_, w, rest, ht, hrest⟩
      · rw [ht] at hm
        cases hm
      · rw [ht] at hm
        simp only [List.cons_append, List.nil_append, List.mem_cons, reduceCtorEq,
          false_or] at hm
        have := hrest _ hm
        cases this
    refine ⟨⟨fun hm => ?_, fun hl => ?_⟩, hfr, fun hby => ?_⟩
    · rw [hev] at hm
      rcases List.mem_append.1 hm with hm | hm
      · rcases List.mem_append.1 hm with hm | hm
        · rcases List.mem_append.1 hm with hm | hm
          · exact absurd hm hev1a
          · split_ifs at hm with hl
            · revert hl
              cases st._forceRender <;> cases env.userRoIEnabled <;> simp
            · cases hm
        · exact absurd hm hmid1
      · exact absurd hm htail1
    · rw [hev, hl.1, hl.2]
      simp
    · have hown : (st._forceRender || env.userRoIEnabled) = true := by
        rcases hby with hby | hby <;> simp [hby]
      refine ⟨by rw [hmf]; exact hown, ?_, fun hc => ?_, fun hc => ?_⟩
      · rw [hev]
        exact List.mem_append_left _ (List.mem_append_right _ (hmalloc hown))
      · rcases hcase with ⟨hc1, _, _⟩ | ⟨_, w, rest, ht, _⟩
        · rw [hc] at hc1
          cases hc1
        · refine ⟨w, ?_⟩
          rw [hev, ht]
          simp
      · rcases hcase with ⟨_, ht, hst⟩ | ⟨hc1, _⟩
        · refine ⟨hst, fun w b hm => ?_⟩
          rw [hev, ht, List.append_nil] at hm
          rcases List.mem_append.1 hm with hm | hm
          · rcases List.mem_append.1 hm with hm | hm
            · exact hev1b w b hm
            · split_ifs at hm <;> simp at hm
          · exact hmid2 w b hm
        · rw [hc] at hc1
          cases hc1


/-- A request that is not aborted at entry, whose region of definition is available and
whose tile is not degenerate reaches the cache gate. -/
theorem renderViewer_reaches_gate (env : Env) (st : ViewerState)
    (fitToViewer singleThreaded : Bool) (fuel : Nat)
    (h1 : env.abortedAtEntry = false) (h2 : env.rodStatus ≠ Status.StatFailed)
    (h3 : (displayedTile env fitToViewer).width ≠ 0 ∧
      (displayedTile env fitToViewer).height ≠ 0) :
    renderViewer env st fitToViewer singleThreaded fuel =
      renderTile env st
        ((if fitToViewer then [Event.fitImageToFormat] else []) ++
          [Event.setRegionOfDefinition env.rod])
        (clippedTile env fitToViewer)
        (textureRectOf (displayedTile env fitToViewer) (clippedTile env fitToViewer) env.rod
          (closestPowerOf2 (if fitToViewer then env.zoomFactorAfterFit else env.zoomFactor)))
        singleThreaded fuel := by
  unfold renderViewer
  rw [if_neg (by simp [h1]), if_neg h2]
  simp only []
  have h3a : ¬ ((texRectOf env.roi
      (closestPowerOf2 (if fitToViewer = true then env.zoomFactorAfterFit else env.zoomFactor))
      (tileSize env.tilesPowerOf2)).width = 0 ∨
      (texRectOf env.roi
      (closestPowerOf2 (if fitToViewer = true then env.zoomFactorAfterFit else env.zoomFactor))
      (tileSize env.tilesPowerOf2)).height = 0) := by
    intro h
    rcases h with h | h
    · exact h3.1 h
    · exact h3.2 h
  rw [if_neg h3a]
  rfl

theorem renderMiss_singleThreaded (env : Env) (st : ViewerState) (events : List Event)
    (cachedFrame byPassCache : Bool) (clipped : RectI) (bytesCount : Int) (fuel : Nat) :
    ∃ out, renderMiss env st events cachedFrame byPassCache clipped bytesCount true fuel =
      some out := by
  unfold renderMiss
  simp only [if_true]
  split_ifs <;> exact ⟨_, rfl⟩

theorem renderTile_singleThreaded (env : Env) (st : ViewerState) (events : List Event)
    (clipped : RectI) (textureRect : TextureRect) (fuel : Nat) :
    ∃ out, renderTile env st events clipped textureRect true fuel = some out := by
  unfold renderTile
  simp only []
  by_cases hc : (!st._forceRender && !env.userRoIEnabled && env.isCached) = true
  · rw [if_pos hc]
    exact ⟨_, rfl⟩
  · rw [if_neg hc]
    exact renderMiss_singleThreaded _ _ _ _ _ _ _ _

theorem renderTile_isCached (env : Env) (c : Bool) (st : ViewerState) (events : List Event)
    (clipped : RectI) (textureRect : TextureRect) (singleThreaded : Bool) (fuel : Nat)
    (hby : st._forceRender = true ∨ env.userRoIEnabled = true) :
    renderTile { env with isCached := c } st events clipped textureRect singleThreaded fuel =
      renderTile env st events clipped textureRect singleThreaded fuel := by
  have hl : (!st._forceRender && !env.userRoIEnabled) = false := by
    rcases hby with h | h <;> simp [h]
  unfold renderTile
  simp only [hl, Bool.false_and, Bool.false_eq_true, if_false]
  exact renderMiss_isCached env c _ _ _ _ _ _ _ _

/-- C11 (amended): for every request that reaches the cache gate (not aborted at entry,
region of definition available, tile not degenerate), the viewer cache is looked up if
and only if the force-render flag is clear and the user region of interest is disabled,
and the force-render flag is false afterwards; when the flag is set or the user region is
enabled the run does not depend on what the cache holds, the pixels go to a buffer
allocated and owned by the viewer (`_mustFreeBuffer = true`) and no cache entry is
obtained, and the upstream render is invoked unless the user region is enabled and does
not intersect the tile, in which case `renderViewer` returns `StatOK` without rendering.
A render in the calling thread always returns. -/
theorem renderViewer_cache_gate (env : Env) (st : ViewerState)
    (fitToViewer singleThreaded : Bool) (fuel : Nat)
    (h1 : env.abortedAtEntry = false) (h2 : env.rodStatus ≠ Status.StatFailed)
    (h3 : (displayedTile env fitToViewer).width ≠ 0 ∧
      (displayedTile env fitToViewer).height ≠ 0) :
    (∃ out, renderViewer env st fitToViewer true fuel = some out) ∧
    ((st._forceRender = true ∨ env.userRoIEnabled = true) →
      ∀ c, renderViewer { env with isCached := c } st fitToViewer singleThreaded fuel =
        renderViewer env st fitToViewer singleThreaded fuel) ∧
    ∀ out, renderViewer env st fitToViewer singleThreaded fuel = some out →
      (Event.getTextureFromCache ∈ out.events ↔
        (st._forceRender = false ∧ env.userRoIEnabled = false)) ∧
      out.state._forceRender = false ∧
      ((st._forceRender = true ∨ env.userRoIEnabled = true) →
        out.state._mustFreeBuffer = true ∧
        (∃ bytesCount, Event.mallocBuffer bytesCount ∈ out.events) ∧
        Event.getTextureFromCache ∉ out.events ∧
        (userRoIMisses env fitToViewer = false →
          ∃ w, Event.renderRoI w st._forceRender ∈ out.events) ∧
        (userRoIMisses env fitToViewer = true →
          out.status = Status.StatOK ∧ ∀ w b, Event.renderRoI w b ∉ out.events)) := by
  refine ⟨?_, fun hby c => ?_, fun out hout => ?_⟩
  · rw [renderViewer_reaches_gate env st fitToViewer true fuel h1 h2 h3]
    exact renderTile_singleThreaded _ _ _ _ _ _
  · rw [renderViewer_reaches_gate env st fitToViewer singleThreaded fuel h1 h2 h3,
      renderViewer_reaches_gate { env with isCached := c } st fitToViewer singleThreaded fuel
        h1 h2 h3]
    exact renderTile_isCached env c st _ _ _ _ _ hby
  · rw [renderViewer_reaches_gate env st fitToViewer singleThreaded fuel h1 h2 h3] at hout
    have hev1 : ∀ e ∈ (if fitToViewer then [Event.fitImageToFormat] else []) ++
        [Event.setRegionOfDefinition env.rod],
        e = Event.fitImageToFormat ∨ ∃ r, e = Event.setRegionOfDefinition r := by
      intro e he
      rcases List.mem_append.1 he with h | h
      · split_ifs at h <;> simp_all
      · simp only [List.mem_singleton] at h
        exact Or.inr ⟨_, h⟩
    obtain ⟨hA, hB, hC⟩ := renderTile_gate env st _ _ _ _ _ out hev1 hout
    refine ⟨hA, hB, fun hby => ?_⟩
    obtain ⟨hm, hmalloc, hr1, hr2⟩ := hC hby
    refine ⟨hm, ⟨_, hmalloc⟩, fun hg => ?_, hr1, hr2⟩
    obtain ⟨hf, hu⟩ := hA.1 hg
    rcases hby with hby | hby
    · rw [hf] at hby
      cases hby
    · rw [hu] at hby
      cases hby


theorem intersectRect_self_unit :
    intersectRect ⟨0, 0, 2, 2⟩ ⟨0, 0, 2, 2⟩ = (true, ⟨0, 0, 2, 2⟩) := by decide

theorem intersectRect_outside :
    intersectRect ⟨0, 0, 2, 2⟩ ⟨10, 10, 12, 12⟩ = (false, ⟨0, 0, 2, 2⟩) := by decide

theorem toInt_one : toInt 1 = 1 := by
  have h := toInt_intCast 1
  simpa using h

/-- The run of `renderViewer` on `userRoIOutsideEnv`: the buffer is allocated and the call
returns `StatOK` without any upstream render. -/
theorem renderViewer_userRoIOutsideEnv :
    renderViewer userRoIOutsideEnv ViewerState.init false true 0 =
      some { status := Status.StatOK
             events := [Event.setRegionOfDefinition ⟨0, 0, 2, 2⟩, Event.mallocBuffer 16]
             state := { _pboIndex := 0, _forceRender := false, _mustFreeBuffer := true } } := by
  simp [renderViewer, renderTile, renderMiss, userRoIOutsideEnv, closestPowerOf2_one,
    tileSize_zero, texRectOf_unit, scaleRect_one, RectI.width, RectI.height, ViewerState.init,
    intersectRect_self_unit, intersectRect_outside, textureRectOf]

/-- C11 (as stated, refuted): with the user region of interest enabled but lying outside
the tile, `renderViewer` returns `StatOK` after allocating its buffer and never invokes
the upstream render. -/
theorem userRoI_outside_skips_render :
    userRoIOutsideEnv.userRoIEnabled = true ∧
    (renderViewer userRoIOutsideEnv ViewerState.init false true 0).map Outcome.status =
      some Status.StatOK ∧
    ¬ ∃ out w b, renderViewer userRoIOutsideEnv ViewerState.init false true 0 = some out ∧
      Event.renderRoI w b ∈ out.events := by
  refine ⟨rfl, by rw [renderViewer_userRoIOutsideEnv]; rfl, ?_⟩
  rintro ⟨out, w, b, hout, hmem⟩
  rw [renderViewer_userRoIOutsideEnv] at hout
  obtain rfl := Option.some.inj hout
  simp at hmem

theorem displayedTile_forcedRenderEnv :
    displayedTile forcedRenderEnv false = ⟨0, 0, 2, 2⟩ := by
  simp [displayedTile, forcedRenderEnv, closestPowerOf2_one, tileSize_zero, texRectOf_unit]

/-- The run of `renderViewer` on `forcedRenderEnv` with the force-render flag set: no
lookup, a fresh buffer, the upstream render by-passing its cache, one conversion, the
upload. -/
theorem renderViewer_forcedRenderEnv :
    renderViewer forcedRenderEnv
        { _pboIndex := 0, _forceRender := true, _mustFreeBuffer := false } false true 0 =
      some { status := Status.StatOK
             events := [Event.setRegionOfDefinition ⟨0, 0, 2, 2⟩, Event.mallocBuffer 16,
               Event.notifyInputNIsRendering, Event.renderRoI ⟨0, 0, 2, 2⟩ true,
               Event.notifyInputNIsFinishedRendering, Event.scaleToTexture false (0, 2),
               Event.clearExceedingEntriesFromNodeCache, Event.makeOpenGLcontextCurrent,
               Event.transferBufferFromRAMtoGPU 0, Event.updateColorPicker, Event.redraw]
             state := { _pboIndex := 1, _forceRender := false, _mustFreeBuffer := true } } := by
  simp [renderViewer, renderTile, renderMiss, forcedRenderEnv, closestPowerOf2_one,
    tileSize_zero, texRectOf_unit, scaleRect_one, RectI.width, RectI.height,
    intersectRect_self_unit, textureRectOf, renderFunctorEvents, handoff, updateViewer]
  decide

/-- C11 (amended), instance on `forcedRenderEnv` with the force-render flag set and an
entry for the key in the cache: no lookup, flag cleared, viewer-owned buffer, upstream
render invoked. -/
theorem renderViewer_cache_gate_witness :
    forcedRenderEnv.abortedAtEntry = false ∧
    forcedRenderEnv.rodStatus ≠ Status.StatFailed ∧
    ((displayedTile forcedRenderEnv false).width ≠ 0 ∧
      (displayedTile forcedRenderEnv false).height ≠ 0) ∧
    forcedRenderEnv.isCached = true ∧
    ∃ out, renderViewer forcedRenderEnv
        { _pboIndex := 0, _forceRender := true, _mustFreeBuffer := false } false true 0 =
          some out ∧
      out.state._forceRender = false ∧
      out.state._mustFreeBuffer = true ∧
      (∃ bytesCount, Event.mallocBuffer bytesCount ∈ out.events) ∧
      Event.getTextureFromCache ∉ out.events ∧
      ∃ w, Event.renderRoI w true ∈ out.events := by
  have h2 : forcedRenderEnv.rodStatus ≠ Status.StatFailed := by decide
  have h3 : (displayedTile forcedRenderEnv false).width ≠ 0 ∧
      (displayedTile forcedRenderEnv false).height ≠ 0 := by
    rw [displayedTile_forcedRenderEnv]
    decide
  obtain ⟨hret, _, hall⟩ := renderViewer_cache_gate forcedRenderEnv
    { _pboIndex := 0, _forceRender := true, _mustFreeBuffer := false } false true 0 rfl h2 h3
  obtain ⟨out, hout⟩ := hret
  obtain ⟨_, hB, hC⟩ := hall out hout
  obtain ⟨hm, hmalloc, hno, hr, _⟩ := hC (Or.inl rfl)
  exact ⟨rfl, h2, h3, rfl, out, hout, hB, hm, hmalloc, hno, hr rfl⟩


end ViewerInstance
